import Mathlib

/-!
# Stat summary of the conduit public API

A shallow embedding of `controller/api/public/stat_summary.go` and a verification of its
specification.  Go functions that return `(value, error)` return `Except Failure value`; a Go map
`map[string]V` is an association list with distinct keys, whose entry order stands for the
(unspecified) order in which `range` visits the map; unsigned 64-bit counters are naturals.
-/

namespace Conduit

/-! ## Data model -/

/-- Go `map[string]V`: `lookup` is indexing with the comma-ok form, `insert` is assignment. -/
abbrev GoMap (V : Type) := AList (fun _ : String => V)

/-- Prometheus `model.LabelSet`, a `map[LabelName]LabelValue`. -/
abbrev LabelSet := GoMap String

/-- Prometheus `model.Metric`, which is a label set. -/
abbrev Metric := LabelSet

/-- Prometheus `model.LabelNames`, a slice of label names. -/
abbrev LabelNames := List String

/-- Indexing a label set, `set[k]`: the empty string when the label is missing. -/
def LabelSet.get (set : LabelSet) (k : String) : String :=
  (set.lookup k).getD ""

/-- Method `LabelSet.Merge`: a copy of `l` into which every binding of `other` is then assigned, so
that `other` wins on a label both carry. -/
def LabelSet.Merge (l other : LabelSet) : LabelSet :=
  other ∪ l

/-- A `float64`: not-a-number, an infinity, or the finite value `(-1)^neg * mant * 2^exp`
(negative zero is `finite true 0 0`). -/
inductive SampleValue where
  | NaN
  | Inf (neg : Bool)
  | finite (neg : Bool) (mant : Nat) (exp : Int)
deriving DecidableEq, Repr

/-- Go `math.IsNaN`. -/
def SampleValue.IsNaN : SampleValue → Bool
  | .NaN => true
  | _ => false

/-- Nearest integer to `mant * 2^exp`, halves rounded up. -/
def roundMagnitude (mant : Nat) : Int → Nat
  | Int.ofNat e => mant * 2 ^ e
  | Int.negSucc e => (mant + 2 ^ e) / 2 ^ (e + 1)

/-- Integer part of `mant * 2^exp`. -/
def truncMagnitude (mant : Nat) : Int → Nat
  | Int.ofNat e => mant * 2 ^ e
  | Int.negSucc e => mant / 2 ^ (e + 1)

/-- Go `math.Round`: the nearest integer as a float, halves rounded away from zero; the sign is
kept and the special values are returned unchanged. -/
def SampleValue.Round : SampleValue → SampleValue
  | .finite neg mant exp => .finite neg (roundMagnitude mant exp) 0
  | v => v

/-- A prometheus `model.Sample` (its timestamp is never read). -/
structure Sample where
  Metric : Metric
  Value : SampleValue
deriving DecidableEq

/-- Prometheus `model.Vector`. -/
abbrev Vector := List Sample

/-- Go `error` values: a gRPC status made by `status.Errorf`, or any other error. -/
inductive Error where
  | Status (code : String) (msg : String)
  | Other (msg : String)
deriving DecidableEq, Repr

/-- How a call can end without a result: it returns a non-nil error, or a run-time panic unwinds
it. -/
inductive Failure where
  | err (e : Error)
  | panic (msg : String)
deriving DecidableEq, Repr

/-- Type `promType`. -/
abbrev promType := String

/-- Type `promResult`; `err` is `none` for a nil error. -/
structure promResult where
  prom : promType
  vec : Vector
  err : Option Error
deriving DecidableEq

def promRequests : promType := "QUERY_REQUESTS"
def promLatencyP50 : promType := "0.5"
def promLatencyP95 : promType := "0.95"
def promLatencyP99 : promType := "0.99"

def namespaceLabel : String := "namespace"
def dstNamespaceLabel : String := "dst_namespace"

def promTypes : List promType := [promRequests, promLatencyP50, promLatencyP95, promLatencyP99]

/-- Type `meshedCount`. -/
structure meshedCount where
  inMesh : Nat := 0
  total : Nat := 0
deriving DecidableEq, Repr

/-- Message `pb.Resource`. -/
structure Resource where
  Namespace : String := ""
  Type_ : String := ""
  Name : String := ""
deriving DecidableEq, Repr

/-- Message `pb.ResourceSelection`. -/
structure ResourceSelection where
  Resource : Resource
  LabelSelector : String := ""
deriving DecidableEq, Repr

/-- The oneof `StatSummaryRequest.Outbound`: the wrapper of the active variant with its payload;
an unset oneof is `Option.none` at the request. The payload of the `None` variant is a pointer
to the message `pb.Empty`, which has no fields: nil (`&pb.StatSummaryRequest_None{}`) or set. -/
inductive Outbound where
  | None (payload : Option Unit)
  | ToResource (r : Resource)
  | FromResource (r : Resource)
deriving DecidableEq, Repr

/-- Message `pb.StatSummaryRequest` with its selector present. -/
structure StatSummaryRequest where
  Selector : ResourceSelection
  TimeWindow : String := ""
  Outbound : Option Outbound := none
deriving DecidableEq, Repr

/-- Message `pb.BasicStats`. -/
structure BasicStats where
  SuccessCount : Nat := 0
  FailureCount : Nat := 0
  LatencyMsP50 : Nat := 0
  LatencyMsP95 : Nat := 0
  LatencyMsP99 : Nat := 0
deriving DecidableEq, Repr

/-- Message `pb.StatTable_PodGroup_Row`; `Stats` is a pointer, `none` when nil. -/
structure Row where
  Resource : Resource
  TimeWindow : String
  MeshedPodCount : Nat := 0
  TotalPodCount : Nat := 0
  Stats : Option BasicStats
deriving DecidableEq, Repr

/-- Message `pb.StatTable` holding a pod group. -/
structure StatTable where
  Rows : List Row
deriving DecidableEq, Repr

/-- Message `pb.StatSummaryResponse` in its `Ok` variant. -/
structure StatSummaryResponse where
  StatTables : List StatTable
deriving DecidableEq, Repr

/-- Interface `metav1.Object`, read through `GetNamespace` and `GetName`. -/
structure ObjectMeta where
  Namespace : String
  Name : String
deriving DecidableEq, Repr

/-- A `runtime.Object` handed out by the lister; `Meta` is `none` for an object that
`meta.Accessor` cannot read. -/
structure Object where
  Meta : Option ObjectMeta
deriving DecidableEq, Repr

/-- The fields of `apiv1.Pod` that are read. -/
structure Pod where
  Name : String
  Labels : GoMap String := ∅
  Annotations : GoMap String := ∅
  Phase : String := ""
  DeletionTimestamp : Option Nat := none

/-- Prometheus `model.Value`: a vector, or a value of another type (scalar, matrix, string). -/
inductive Value where
  | Vector (v : Vector)
  | Other (typeName : String)

/-- Declarations the file uses that are not among the sources: the constants of `pkg/k8s`,
`util.GRPCError`, `strconv.Quote` behind the verb `%q`, and the result of converting to `uint64` a
float that `uint64` cannot represent, which Go leaves to the implementation. -/
structure Deps where
  Services : String
  Namespaces : String
  ResourceTypesToProxyLabels : GoMap String
  ProxyVersionAnnotation : String
  ControllerComponentLabel : String
  GRPCError : Error → Error
  Quote : String → String
  uint64OutOfRange : SampleValue → Nat

/-- The values the lister's `GetSelectorFor` returns together: namespace, name, kind and error
(the label map, its fourth value, is never read). -/
structure SelectorFor where
  ns : String := ""
  name : String := ""
  kind : String := ""
  err : Option Error := none
deriving DecidableEq, Repr

/-- The receiver `grpcServer`: the lister and the prometheus API, each a function of its
arguments. -/
structure grpcServer where
  GetObjects : String → String → String → Except Error (List Object)
  GetPodsFor : Object → Except Error (List Pod)
  GetSelectorFor : Object → SelectorFor
  Query : String → Except Error Value

/-- Message `pb.PodSummaryRequest` with its selector present. -/
structure PodSummaryRequest where
  Selector : ResourceSelection
deriving DecidableEq, Repr

/-- Message `pb.PodList_Row_PodStatus`. -/
structure PodStatus where
  Name : String
  Added : Bool
  ControlPlane : Bool
  Status : String
deriving DecidableEq, Repr

/-- Message `pb.PodList_Row`. -/
structure PodListRow where
  Resource : Resource
  PodStatuses : List PodStatus
deriving DecidableEq, Repr

/-- Message `pb.PodSummaryResponse` in its `Ok` variant, holding the rows of its pod list. -/
structure PodSummaryResponse where
  Rows : List PodListRow
deriving DecidableEq, Repr

/-- The order in which the four query tasks deliver their result on the channel. -/
structure Arrival where
  order : List promType
  perm : order.Perm promTypes

/-! ## Library functions -/

/-- Conversion `uint64(f)`: the fraction is discarded; a value `uint64` cannot represent gives an
implementation-dependent result. -/
def toUint64 (d : Deps) (v : SampleValue) : Nat :=
  match v with
  | .finite neg mant exp =>
    let t := truncMagnitude mant exp
    if t = 0 then 0
    else if neg ∨ 2 ^ 64 ≤ t then d.uint64OutOfRange v % 2 ^ 64
    else t
  | _ => d.uint64OutOfRange v % 2 ^ 64

/-- Function `cache.MetaNamespaceKeyFunc`: `namespace/name`, or `name` alone when the namespace is
empty; an error for an object without metadata. -/
def MetaNamespaceKeyFunc (obj : Object) : Except Error String :=
  match obj.Meta with
  | none => .error (.Other "object has no meta")
  | some m => if m.Namespace.length > 0 then .ok (m.Namespace ++ "/" ++ m.Name) else .ok m.Name

/-- Function `meta.Accessor`. -/
def Accessor (obj : Object) : Except Error ObjectMeta :=
  match obj.Meta with
  | none => .error (.Other "object does not implement the Object interfaces")
  | some m => .ok m

/-- Function `sort.Strings`: ascending in the lexicographic order of the characters. -/
def sortStrings (l : List String) : List String :=
  l.insertionSort (fun a b : String => a.data ≤ b.data)

/-- Method `LabelSet.String`: the bindings `name="value"`, sorted, comma-separated, in braces. -/
def LabelSet.String (d : Deps) (l : LabelSet) : String :=
  "\x7b" ++ ", ".intercalate (sortStrings (l.entries.map fun e => e.1 ++ "=" ++ d.Quote e.2)) ++
    "\x7d"

/-- Method `LabelNames.String`: the names, comma-separated. -/
def LabelNames.String (l : LabelNames) : String :=
  ", ".intercalate l

/-- Generated accessor `GetOutbound`. -/
def StatSummaryRequest.GetOutbound (req : StatSummaryRequest) : Option Conduit.Outbound :=
  req.Outbound

/-- Generated accessor `GetNone`: the payload of the `None` variant, which may be nil; nil for
any other variant and for the unset oneof. -/
def StatSummaryRequest.GetNone (req : StatSummaryRequest) : Option Unit :=
  match req.GetOutbound with
  | some (.None payload) => payload
  | _ => none

/-- The single-value type assertion `x.(*pb.StatSummaryRequest_FromResource)`: the stored pointer
when the dynamic type of `x` is the asserted one, a run-time panic for any other dynamic type and
for the nil interface. -/
def assertFromResource : Option Outbound → Except Failure (Option Resource)
  | some (.FromResource r) => .ok (some r)
  | some (.None _) => .error (.panic
      "interface conversion: public.isStatSummaryRequest_Outbound is *public.StatSummaryRequest_None, not *public.StatSummaryRequest_FromResource")
  | some (.ToResource _) => .error (.panic
      "interface conversion: public.isStatSummaryRequest_Outbound is *public.StatSummaryRequest_ToResource, not *public.StatSummaryRequest_FromResource")
  | none => .error (.panic
      "interface conversion: public.isStatSummaryRequest_Outbound is nil, not *public.StatSummaryRequest_FromResource")

/-! ## The program -/

/-- Function `promResourceType`: the proxy label of the resource type, the empty string for a
type the table does not list. -/
def promResourceType (d : Deps) (resource : Resource) : String :=
  (d.ResourceTypesToProxyLabels.lookup resource.Type_).getD ""

/-- Function `promLabelNames`. -/
def promLabelNames (d : Deps) (resource : Resource) : LabelNames :=
  let names := [namespaceLabel]
  if resource.Type_ ≠ d.Namespaces then names ++ [promResourceType d resource] else names

/-- Function `promDstLabelNames`. -/
def promDstLabelNames (d : Deps) (resource : Resource) : LabelNames :=
  let names := [dstNamespaceLabel]
  if resource.Type_ ≠ d.Namespaces then names ++ ["dst_" ++ promResourceType d resource] else names

/-- Function `promLabels`. -/
def promLabels (d : Deps) (resource : Resource) : LabelSet :=
  let set : LabelSet := ∅
  let set := if resource.Name ≠ "" then set.insert (promResourceType d resource) resource.Name
    else set
  if resource.Type_ ≠ d.Namespaces ∧ resource.Namespace ≠ "" then
    set.insert namespaceLabel resource.Namespace
  else set

/-- Function `promDstLabels`. -/
def promDstLabels (d : Deps) (resource : Resource) : LabelSet :=
  let set : LabelSet := ∅
  let set := if resource.Name ≠ "" then
      set.insert ("dst_" ++ promResourceType d resource) resource.Name
    else set
  if resource.Type_ ≠ d.Namespaces ∧ resource.Namespace ≠ "" then
    set.insert dstNamespaceLabel resource.Namespace
  else set

/-- Function `promDirectionLabels`. -/
def promDirectionLabels (direction : String) : LabelSet :=
  (∅ : LabelSet).insert "direction" direction

/-- Function `buildRequestLabels`: the type switch on `req.Outbound`, whose default case takes
the `None` variant and the unset oneof. -/
def buildRequestLabels (d : Deps) (req : StatSummaryRequest) : LabelSet × LabelNames :=
  let labels : LabelSet := ∅
  match req.Outbound with
  | some (.ToResource out) =>
    let labelNames := promLabelNames d req.Selector.Resource
    let labels := labels.Merge (promDstLabels d out)
    let labels := labels.Merge (promLabels d req.Selector.Resource)
    let labels := labels.Merge (promDirectionLabels "outbound")
    (labels, labelNames)
  | some (.FromResource out) =>
    let labelNames := promDstLabelNames d req.Selector.Resource
    let labels := labels.Merge (promLabels d out)
    let labels := labels.Merge (promDirectionLabels "outbound")
    (labels, labelNames)
  | _ =>
    let labelNames := promLabelNames d req.Selector.Resource
    let labels := labels.Merge (promLabels d req.Selector.Resource)
    let labels := labels.Merge (promDirectionLabels "inbound")
    (labels, labelNames)

/-- Function `metricToKey`. -/
def metricToKey (metric : Metric) (groupBy : LabelNames) : String :=
  "/".intercalate (groupBy.map fun k => LabelSet.get metric k)

/-- Lines 337-340 of `processRequests`: the counter a sample value is stored as. -/
def sampleCount (d : Deps) (v : SampleValue) : Nat :=
  if v.IsNaN then 0 else toUint64 d v.Round

/-- Body of the inner loop of `processRequests`, for one sample of a result of kind `prom`. -/
def processSample (d : Deps) (groupBy : LabelNames) (prom : promType)
    (basicStats : GoMap BasicStats) (sample : Sample) : GoMap BasicStats :=
  let label := metricToKey sample.Metric groupBy
  let basicStats :=
    if basicStats.lookup label = none then basicStats.insert label {} else basicStats
  let value := sampleCount d sample.Value
  let stats := (basicStats.lookup label).getD {}
  if prom = promRequests then
    let classification := LabelSet.get sample.Metric "classification"
    if classification = "success" then
      basicStats.insert label { stats with SuccessCount := value }
    else if classification = "failure" then
      basicStats.insert label { stats with FailureCount := value }
    else basicStats
  else if prom = promLatencyP50 then
    basicStats.insert label { stats with LatencyMsP50 := value }
  else if prom = promLatencyP95 then
    basicStats.insert label { stats with LatencyMsP95 := value }
  else if prom = promLatencyP99 then
    basicStats.insert label { stats with LatencyMsP99 := value }
  else basicStats

/-- Function `processRequests`. -/
def processRequests (d : Deps) (results : List promResult) (groupBy : LabelNames) :
    GoMap BasicStats :=
  results.foldl
    (fun basicStats result => result.vec.foldl (processSample d groupBy result.prom) basicStats) ∅

/-- Method `queryProm`. -/
def queryProm (s : grpcServer) (query : String) : Except Error Vector :=
  match s.Query query with
  | .error err => .error err
  | .ok (.Other typeName) =>
    .error (.Other ("Unexpected query result type (expected Vector): " ++ typeName))
  | .ok (.Vector v) => .ok v

/-- Format `reqQuery` applied to its three arguments. -/
def reqQuery (labels timeWindow groupBy : String) : String :=
  "sum(increase(response_total" ++ labels ++ "[" ++ timeWindow ++ "])) by (" ++ groupBy ++
    ", classification)"

/-- Format `latencyQuantileQuery` applied to its four arguments. -/
def latencyQuantileQuery (quantile labels timeWindow groupBy : String) : String :=
  "histogram_quantile(" ++ quantile ++ ", sum(irate(response_latency_ms_bucket" ++ labels ++ "[" ++
    timeWindow ++ "])) by (le, " ++ groupBy ++ "))"

/-- The query the task of kind `kind` sends to prometheus: `requestsQuery` for the volume,
`latencyQuery` for a quantile. -/
def queryFor (d : Deps) (reqLabels : LabelSet) (timeWindow : String) (groupBy : LabelNames)
    (kind : promType) : String :=
  if kind = promRequests then reqQuery (reqLabels.String d) timeWindow groupBy.String
  else latencyQuantileQuery kind (reqLabels.String d) timeWindow groupBy.String

/-- The message a query task of `getRequests` sends on the result channel. -/
def queryTask (d : Deps) (s : grpcServer) (reqLabels : LabelSet) (timeWindow : String)
    (groupBy : LabelNames) (kind : promType) : promResult :=
  match queryProm s (queryFor d reqLabels timeWindow groupBy kind) with
  | .ok resultVector => { prom := kind, vec := resultVector, err := none }
  | .error err => { prom := kind, vec := [], err := some err }

/-- Lines 309-319 of `getRequests`: the receive loop over the messages in arrival order. -/
def drain (received : List promResult) : Option Error × List promResult :=
  received.foldl
    (fun acc result =>
      match result.err with
      | some e => (some e, acc.2)
      | none => (acc.1, acc.2 ++ [result]))
    (none, [])

/-- Method `getRequests`; `arr` is the order in which the four tasks deliver. -/
def getRequests (d : Deps) (s : grpcServer) (arr : Arrival) (req : StatSummaryRequest)
    (timeWindow : String) : Except Error (GoMap BasicStats) :=
  let (reqLabels, groupBy) := buildRequestLabels d req
  let received := arr.order.map (queryTask d s reqLabels timeWindow groupBy)
  match drain received with
  | (some err, _) => .error err
  | (none, results) => .ok (processRequests d results groupBy)

/-- Function `isInMesh`. -/
def isInMesh (d : Deps) (pod : Pod) : Bool :=
  (pod.Annotations.lookup d.ProxyVersionAnnotation).isSome

/-- Method `getMeshedPodCount`. -/
def getMeshedPodCount (d : Deps) (s : grpcServer) (obj : Object) : Except Error meshedCount :=
  match s.GetPodsFor obj with
  | .error err => .error err
  | .ok pods =>
    .ok (pods.foldl
      (fun meshCount pod =>
        let meshCount := { meshCount with total := meshCount.total + 1 }
        if isInMesh d pod then { meshCount with inMesh := meshCount.inMesh + 1 } else meshCount)
      {})

/-- Lines 379-391 of `getPodStatuses`: the status of one pod. -/
def podStatus (d : Deps) (pod : Pod) : PodStatus :=
  let controllerComponent := LabelSet.get pod.Labels d.ControllerComponentLabel
  let status := if pod.DeletionTimestamp ≠ none then "Terminating" else pod.Phase
  { Name := pod.Name
    Added := isInMesh d pod
    ControlPlane := controllerComponent ≠ ""
    Status := status }

/-- Method `getPodStatuses`. -/
def getPodStatuses (d : Deps) (s : grpcServer) (obj : Object) : Except Error (List PodStatus) :=
  match s.GetPodsFor obj with
  | .error err => .error err
  | .ok pods => .ok (pods.foldl (fun podStatuses pod => podStatuses ++ [podStatus d pod]) [])

/-- Lines 60-75 of `PodSummary`: the rows after one more object.  The error of
`GetSelectorFor` is assigned to `err`, which the call of `getPodStatuses` assigns again before
it is read. -/
def podSummaryStep (d : Deps) (s : grpcServer) (rows : List PodListRow) (object : Object) :
    Except Error (List PodListRow) :=
  let selector := s.GetSelectorFor object
  let resource : Resource :=
    { Namespace := selector.ns, Type_ := selector.kind, Name := selector.name }
  match getPodStatuses d s object with
  | .error err => .error (d.GRPCError err)
  | .ok statuses => .ok (rows ++ [{ Resource := resource, PodStatuses := statuses }])

/-- Method `PodSummary`. -/
def PodSummary (d : Deps) (s : grpcServer) (req : PodSummaryRequest) :
    Except Error PodSummaryResponse :=
  match s.GetObjects req.Selector.Resource.Namespace req.Selector.Resource.Type_
      req.Selector.Resource.Name with
  | .error err => .error (d.GRPCError err)
  | .ok objects =>
    match objects.foldlM (podSummaryStep d s) [] with
    | .error err => .error err
    | .ok rows => .ok { Rows := rows }

/-- Lines 168-181 of `objectQuery`: the row of a key whose discovered object is `resource`. -/
def makeRow (req : StatSummaryRequest) (meshCount : GoMap meshedCount)
    (requestMetrics : GoMap BasicStats) (key : String) (resource : ObjectMeta) : Row :=
  let row : Row :=
    { Resource :=
        { Namespace := resource.Namespace
          Type_ := req.Selector.Resource.Type_
          Name := resource.Name }
      TimeWindow := req.TimeWindow
      Stats := requestMetrics.lookup key }
  match meshCount.lookup key with
  | some count => { row with MeshedPodCount := count.inMesh, TotalPodCount := count.total }
  | none => row

/-- Lines 162-184 of `objectQuery`: the row of one key, none when the key is not a discovered
object. -/
def rowFor (req : StatSummaryRequest) (objects : GoMap ObjectMeta)
    (meshCount : GoMap meshedCount) (requestMetrics : GoMap BasicStats) (key : String) :
    Option Row :=
  match objects.lookup key with
  | none => none
  | some resource => some (makeRow req meshCount requestMetrics key resource)

/-- Lines 148-160 of `objectQuery`: the keys rows are made for. -/
def rowKeys (req : StatSummaryRequest) (objects : GoMap ObjectMeta)
    (requestMetrics : GoMap BasicStats) : List String :=
  if req.GetOutbound = none ∨ req.GetNone ≠ none then objects.keys else requestMetrics.keys

/-- Method `objectQuery`. -/
def objectQuery (d : Deps) (s : grpcServer) (arr : Arrival) (req : StatSummaryRequest)
    (objects : GoMap ObjectMeta) (meshCount : GoMap meshedCount) :
    Except Error StatSummaryResponse :=
  match getRequests d s arr req req.TimeWindow with
  | .error err => .error err
  | .ok requestMetrics =>
    let keys := rowKeys req objects requestMetrics
    let rows := keys.filterMap (rowFor req objects meshCount requestMetrics)
    .ok { StatTables := [{ Rows := rows }] }

/-- Lines 108-125 of `StatSummary`: the object and mesh-count maps after one more object. -/
def addObject (d : Deps) (s : grpcServer)
    (maps : GoMap ObjectMeta × GoMap meshedCount) (object : Object) :
    Except Error (GoMap ObjectMeta × GoMap meshedCount) :=
  match MetaNamespaceKeyFunc object with
  | .error err => .error (d.GRPCError err)
  | .ok key =>
    match Accessor object with
    | .error err => .error (d.GRPCError err)
    | .ok metaObj =>
      match getMeshedPodCount d s object with
      | .error err => .error (d.GRPCError err)
      | .ok meshCount => .ok (maps.1.insert key metaObj, maps.2.insert key meshCount)

/-- Lines 98-132 of `StatSummary`: what follows the check of the service selector. -/
def statSummaryBody (d : Deps) (s : grpcServer) (arr : Arrival) (req : StatSummaryRequest) :
    Except Error StatSummaryResponse :=
  match s.GetObjects req.Selector.Resource.Namespace req.Selector.Resource.Type_
      req.Selector.Resource.Name with
  | .error err => .error (d.GRPCError err)
  | .ok objects =>
    match objects.foldlM (addObject d s) (∅, ∅) with
    | .error err => .error err
    | .ok (objectMap, meshCountMap) =>
      match objectQuery d s arr req objectMap meshCountMap with
      | .error err => .error (d.GRPCError err)
      | .ok res => .ok res

/-- Method `StatSummary`.  The right operand of `&&` is evaluated only for a service selector. -/
def StatSummary (d : Deps) (s : grpcServer) (arr : Arrival) (req : StatSummaryRequest) :
    Except Failure StatSummaryResponse :=
  let body : Except Failure StatSummaryResponse :=
    match statSummaryBody d s arr req with
    | .error err => .error (.err err)
    | .ok res => .ok res
  if req.Selector.Resource.Type_ = d.Services then
    match assertFromResource req.Outbound with
    | .error failure => .error failure
    | .ok none =>
      .error (.err (.Status "InvalidArgument"
        "service only supported as a target on 'from' queries, or as a destination on 'to' queries."))
    | .ok (some _) => body
  else body

/-! ## Definitions of the specification -/

/-- The five counters of a `pb.BasicStats`. -/
inductive Field where
  | SuccessCount | FailureCount | LatencyMsP50 | LatencyMsP95 | LatencyMsP99
deriving DecidableEq, Repr

/-- Reading a counter. -/
def Field.get : Field → BasicStats → Nat
  | .SuccessCount, b => b.SuccessCount
  | .FailureCount, b => b.FailureCount
  | .LatencyMsP50, b => b.LatencyMsP50
  | .LatencyMsP95, b => b.LatencyMsP95
  | .LatencyMsP99, b => b.LatencyMsP99

/-- The kind of query whose samples are routed to the counter. -/
def Field.kind : Field → promType
  | .SuccessCount => promRequests
  | .FailureCount => promRequests
  | .LatencyMsP50 => promLatencyP50
  | .LatencyMsP95 => promLatencyP95
  | .LatencyMsP99 => promLatencyP99

/-- Which samples of a result of that kind are routed to the counter. -/
def Field.accepts : Field → Sample → Bool
  | .SuccessCount, s => LabelSet.get s.Metric "classification" = "success"
  | .FailureCount, s => LabelSet.get s.Metric "classification" = "failure"
  | _, _ => true

/-- The switch at lines 342-356 on the record of the sample's key. -/
def routeSample (d : Deps) (prom : promType) (sample : Sample) (stats : BasicStats) : BasicStats :=
  let value := sampleCount d sample.Value
  if prom = promRequests then
    let classification := LabelSet.get sample.Metric "classification"
    if classification = "success" then { stats with SuccessCount := value }
    else if classification = "failure" then { stats with FailureCount := value }
    else stats
  else if prom = promLatencyP50 then { stats with LatencyMsP50 := value }
  else if prom = promLatencyP95 then { stats with LatencyMsP95 := value }
  else if prom = promLatencyP99 then { stats with LatencyMsP99 := value }
  else stats

/-- The samples of the results in the order `processRequests` visits them, each with the kind of
its result. -/
def samplesOf (results : List promResult) : List (promType × Sample) :=
  results.flatMap fun r => r.vec.map fun s => (r.prom, s)

/-- The vector made of the vectors of the results of kind `kind`, in order. -/
def vectorOf (results : List promResult) (kind : promType) : Vector :=
  (results.filter fun r => r.prom = kind).flatMap fun r => r.vec

/-- The counter of the last sample of `vec` that has group key `key` and that `accept` holds of;
0 when there is no such sample. -/
def lastCount (d : Deps) (groupBy : LabelNames) (vec : Vector) (key : String)
    (accept : Sample → Bool) : Nat :=
  (((vec.filter fun s => metricToKey s.Metric groupBy = key && accept s).getLast?).map
    fun s => sampleCount d s.Value).getD 0

/-- What `processRequests` does to the record of one key when it visits one sample. -/
def keyStep (d : Deps) (g : LabelNames) (k : String) (o : Option BasicStats)
    (st : promType × Sample) : Option BasicStats :=
  if metricToKey st.2.Metric g = k then some (routeSample d st.1 st.2 (o.getD {})) else o

/-- The counter of the sample of `vec` that has group key `key` and that `accept` holds of; 0
when there is no such sample. -/
def countOf (d : Deps) (groupBy : LabelNames) (vec : Vector) (key : String)
    (accept : Sample → Bool) : Nat :=
  match vec.find? fun s => metricToKey s.Metric groupBy = key && accept s with
  | some s => sampleCount d s.Value
  | none => 0

/-! ## Rows and the scenario -/

/-- Modelled from the spec: the generated accessors of `pb.BasicStats` (package
`controller/gen/public` is not among the sources); "stats: StatisticsRecord (zero-valued if
absent)": a counter read through a nil record is 0. -/
def statsCounter (f : Field) (stats : Option BasicStats) : Nat :=
  match stats with
  | some b => f.get b
  | none => 0

/-- A sample of the scenario: a series of deployment `name` in namespace `ns1`, with a
classification for the volume query, and an integral value. -/
def scenarioSample (name : String) (classification : Option String) (value : Nat) : Sample :=
  { Metric :=
      match classification with
      | some c =>
        (((∅ : LabelSet).insert "namespace" "ns1").insert "deployment" name).insert
          "classification" c
      | none => ((∅ : LabelSet).insert "namespace" "ns1").insert "deployment" name
    Value := .finite false value 0 }

/-- The vector each query of the scenario is answered with. -/
def scenarioVector (kind : promType) : Vector :=
  if kind = promRequests then
    [scenarioSample "web-a" (some "success") 10, scenarioSample "web-a" (some "failure") 2]
  else if kind = promLatencyP50 then [scenarioSample "web-a" none 5]
  else if kind = promLatencyP95 then [scenarioSample "web-a" none 20]
  else if kind = promLatencyP99 then [scenarioSample "web-a" none 50]
  else []

/-- The request of the scenario, for the resource type `ty`, the time window `tw` and the
direction filter `out`. -/
def scenarioRequest (ty tw : String) (out : Option Outbound) : StatSummaryRequest :=
  { Selector := { Resource := { Namespace := "ns1", Type_ := ty, Name := "web" } }
    TimeWindow := tw
    Outbound := out }

/-- The discovered object of the scenario named `name`. -/
def scenarioObject (name : String) : Object :=
  { Meta := some { Namespace := "ns1", Name := name } }

/-! ## Example data -/

/-- Example values for the declarations that are not among the sources. -/
def exampleDeps : Deps :=
  { Services := "services"
    Namespaces := "namespaces"
    ResourceTypesToProxyLabels :=
      ((((∅ : GoMap String).insert "deployments" "deployment").insert "namespaces"
        "namespace").insert "pods" "pod").insert "services" "service"
    ProxyVersionAnnotation := "conduit.io/proxy-version"
    ControllerComponentLabel := "conduit.io/control-plane-component"
    GRPCError := fun err =>
      match err with
      | .Status code msg => .Status code msg
      | .Other msg => .Status "Unknown" msg
    Quote := fun v => "\"" ++ v ++ "\""
    uint64OutOfRange := fun _ => 0 }

/-- An arrival order: the 0.95 quantile first, the volume second. -/
def exampleArrival : Arrival :=
  { order := [promLatencyP95, promRequests, promLatencyP99, promLatencyP50]
    perm := by decide }

/-- A prometheus API that answers the four queries `queries` with the vectors of the scenario
and fails on any other query. -/
def scenarioQuery (queries : promType → String) (query : String) : Except Error Value :=
  if query = queries promRequests then .ok (.Vector (scenarioVector promRequests))
  else if query = queries promLatencyP50 then .ok (.Vector (scenarioVector promLatencyP50))
  else if query = queries promLatencyP95 then .ok (.Vector (scenarioVector promLatencyP95))
  else if query = queries promLatencyP99 then .ok (.Vector (scenarioVector promLatencyP99))
  else .error (.Other "unexpected query")

/-- The queries for the deployments named `web` of namespace `ns1` over one minute, without a
direction filter. -/
def inboundQueries (kind : promType) : String :=
  if kind = promRequests then
    "sum(increase(response_total\x7bdeployment=\"web\", direction=\"inbound\", namespace=\"ns1\"\x7d[1m])) by (namespace, deployment, classification)"
  else
    "histogram_quantile(" ++ kind ++
      ", sum(irate(response_latency_ms_bucket\x7bdeployment=\"web\", direction=\"inbound\", namespace=\"ns1\"\x7d[1m])) by (le, namespace, deployment))"

/-- The queries for the deployments of namespace `ns1` over one minute, for the traffic to the
pod `db` of namespace `ns2`. -/
def outboundQueries (kind : promType) : String :=
  if kind = promRequests then
    "sum(increase(response_total\x7bdirection=\"outbound\", dst_namespace=\"ns2\", dst_pod=\"db\", namespace=\"ns1\"\x7d[1m])) by (namespace, deployment, classification)"
  else
    "histogram_quantile(" ++ kind ++
      ", sum(irate(response_latency_ms_bucket\x7bdirection=\"outbound\", dst_namespace=\"ns2\", dst_pod=\"db\", namespace=\"ns1\"\x7d[1m])) by (le, namespace, deployment))"

/-- The server of the scenario: the lister discovers `web-a` and `web-b`, neither with pods. -/
def scenarioServer (queries : promType → String) : grpcServer :=
  { GetObjects := fun _ _ _ => .ok [scenarioObject "web-a", scenarioObject "web-b"]
    GetPodsFor := fun _ => .ok []
    GetSelectorFor := fun _ => {}
    Query := scenarioQuery queries }

/-- A request for the deployments of `ns1` with the traffic to the pod `db` of `ns2`. -/
def outboundRequest : StatSummaryRequest :=
  { Selector := { Resource := { Namespace := "ns1", Type_ := "deployments" } }
    TimeWindow := "1m"
    Outbound := some (.ToResource { Namespace := "ns2", Type_ := "pods", Name := "db" }) }

/-- Three discovered objects `web-a`, `web-b` and `web-c` of namespace `ns1`. -/
def threeObjects : GoMap ObjectMeta :=
  (((∅ : GoMap ObjectMeta).insert "ns1/web-a" { Namespace := "ns1", Name := "web-a" }).insert
    "ns1/web-b" { Namespace := "ns1", Name := "web-b" }).insert
    "ns1/web-c" { Namespace := "ns1", Name := "web-c" }

/-- The four results of the scenario in the arrival order `exampleArrival`. -/
def scenarioResults : List promResult :=
  exampleArrival.order.map fun kind => ⟨kind, scenarioVector kind, none⟩

/-- A request for the services that the deployment `web` of `ns1` sends traffic to. -/
def fromRequest : StatSummaryRequest :=
  { Selector := { Resource := { Type_ := "services" } }
    TimeWindow := "1m"
    Outbound := some (.FromResource { Namespace := "ns1", Type_ := "deployments", Name := "web" }) }

/-- The four results of the scenario, the volume first. -/
def scenarioResultsByKind : List promResult :=
  [⟨promRequests, scenarioVector promRequests, none⟩,
    ⟨promLatencyP50, scenarioVector promLatencyP50, none⟩,
    ⟨promLatencyP95, scenarioVector promLatencyP95, none⟩,
    ⟨promLatencyP99, scenarioVector promLatencyP99, none⟩]

/-! ## Rounding, keys, queries and pods -/

/-- The rational number `mant * 2^exp`, the magnitude of the float `finite neg mant exp`. -/
def magnitude (mant : Nat) (exp : Int) : ℚ :=
  mant * (2 : ℚ) ^ exp

/-- Whether the sample carries the identity of an object with namespace `ns` and name `n` in the
group-by labels of the request: the namespace label holds `ns` and the resource-type label holds
`n`; for a target of the namespace kind the namespace label holds `n`.  With the direction
filter `FromResource` the labels are the `dst_` ones. -/
def carriesIdentity (d : Deps) (req : StatSummaryRequest) (sample : Sample) (ns n : String) :
    Bool :=
  let target := req.Selector.Resource
  match req.Outbound with
  | some (.FromResource _) =>
    if target.Type_ = d.Namespaces then LabelSet.get sample.Metric "dst_namespace" == n
    else LabelSet.get sample.Metric "dst_namespace" == ns &&
      LabelSet.get sample.Metric ("dst_" ++ promResourceType d target) == n
  | _ =>
    if target.Type_ = d.Namespaces then LabelSet.get sample.Metric "namespace" == n
    else LabelSet.get sample.Metric "namespace" == ns &&
      LabelSet.get sample.Metric (promResourceType d target) == n

/-- The query of kind `kind` that `getRequests` sends for a request. -/
def requestQuery (d : Deps) (req : StatSummaryRequest) (timeWindow : String) (kind : promType) :
    String :=
  queryFor d (buildRequestLabels d req).1 timeWindow (buildRequestLabels d req).2 kind

/-- The request `fromRequest` for another target: the services named `billing`. -/
def fromRequestOther : StatSummaryRequest :=
  { Selector := { Resource := { Namespace := "ns3", Type_ := "services", Name := "billing" } }
    TimeWindow := "1m"
    Outbound := some (.FromResource { Namespace := "ns1", Type_ := "deployments", Name := "web" }) }

/-- Three pods: a meshed one, a meshed control-plane pod that is being deleted, and a pod
outside the mesh. -/
def examplePods : List Pod :=
  [{ Name := "web-a-1"
     Annotations := (∅ : GoMap String).insert "conduit.io/proxy-version" "v0.4.1"
     Phase := "Running" },
   { Name := "controller-1"
     Labels := (∅ : GoMap String).insert "conduit.io/control-plane-component" "controller"
     Annotations := (∅ : GoMap String).insert "conduit.io/proxy-version" "v0.4.1"
     Phase := "Running"
     DeletionTimestamp := some 1525132800 },
   { Name := "web-a-2", Phase := "Pending" }]

/-- The server of the scenario with `examplePods` as the pods of every object. -/
def podServer : grpcServer :=
  { scenarioServer inboundQueries with GetPodsFor := fun _ => .ok examplePods }

/-- A vector of the 0.5 quantile with two samples of the same group key. -/
def duplicateVector : Vector :=
  [scenarioSample "web-a" none 5, scenarioSample "web-a" none 7]

/-! ## The parts of a request that its queries are made of

Definitions of the specification for the injectivity of the queries: `readParts` lists, field by
field, what a request contributes to its queries; it is compared with `buildRequestLabels`, the
definition from the source, in `buildRequestLabels_eq_assemble`. -/

/-- A word of letters, digits, `-`, `.` and `_`: the alphabet of Kubernetes names and of the
proxy labels. -/
def plain (s : String) : Bool :=
  s.data.all fun c => c.isAlphanum || c == '-' || c == '.' || c == '_'

/-- The characters `String.intercalate` puts after the first element. -/
def sepData (s : String) : List String → List Char
  | [] => []
  | x :: l => s.data ++ x.data ++ sepData s l

/-- The matchers a resource stands for: its name under the proxy label of its type when the
name is set, and its namespace under `namespace` unless the resource is of the namespace kind or
the namespace is unset. -/
def matchers (d : Deps) (r : Resource) : List (String × String) :=
  (if r.Name = "" then [] else [(promResourceType d r, r.Name)]) ++
    (if r.Type_ = d.Namespaces ∨ r.Namespace = "" then [] else [("namespace", r.Namespace)])

/-- What the queries of a request are made of: the value of the `direction` matcher, the
matchers under their own names, the matchers under `dst_` names, and the group-by names. -/
structure ReadParts where
  direction : String
  own : List (String × String)
  dst : List (String × String)
  groupBy : List String
deriving DecidableEq, Repr

/-- The parts of a request that its queries are made of.  Without a direction filter: the
target's matchers, grouped by the target's names.  With `ToResource`: the same, and the matchers
of the destination under `dst_` names.  With `FromResource`: the matchers of the source, grouped
by the `dst_` names of the target, whose name and namespace are not read. -/
def readParts (d : Deps) (req : StatSummaryRequest) : ReadParts :=
  let target := req.Selector.Resource
  match req.Outbound with
  | some (.ToResource dst) =>
    { direction := "outbound", own := matchers d target, dst := matchers d dst
      groupBy := "namespace" ::
        if target.Type_ = d.Namespaces then [] else [promResourceType d target] }
  | some (.FromResource src) =>
    { direction := "outbound", own := matchers d src, dst := []
      groupBy := "dst_namespace" ::
        if target.Type_ = d.Namespaces then [] else ["dst_" ++ promResourceType d target] }
  | _ =>
    { direction := "inbound", own := matchers d target, dst := []
      groupBy := "namespace" ::
        if target.Type_ = d.Namespaces then [] else [promResourceType d target] }

/-- The label set that holds the bindings of a list, the later ones over the earlier. -/
def ofMatchers (m : List (String × String)) : LabelSet :=
  m.foldl (fun set b => set.insert b.1 b.2) ∅

/-- The label set and the group-by names put together from the parts of a request. -/
def assemble (parts : ReadParts) : LabelSet × LabelNames :=
  ((((∅ : LabelSet).Merge (ofMatchers (parts.dst.map fun b => ("dst_" ++ b.1, b.2)))).Merge
      (ofMatchers parts.own)).Merge (promDirectionLabels parts.direction), parts.groupBy)

/-- The parts are well formed: no name is bound twice, and no matcher of the first list is
named `direction` or with a name that begins with `dst_`. -/
def ReadParts.wellFormed (parts : ReadParts) : Prop :=
  (parts.own.map Prod.fst).Nodup ∧ (parts.dst.map Prod.fst).Nodup ∧
    (∀ b ∈ parts.own, b.1 ≠ "direction") ∧ ∀ b ∈ parts.own, ∀ x : String, b.1 ≠ "dst_" ++ x

/-- The order of the matchers of a resource: the one named `namespace` last. -/
def namespaceLast (a b : String × String) : Prop := b.1 = "namespace" ∧ a.1 ≠ "namespace"

/-- The table of the proxy labels is sound for the queries: every label (the empty label of an
unlisted type included) is a plain word other than `direction` that does not begin with `dst_`,
and only the namespace kind has the label `namespace`. -/
def plainTable (d : Deps) : Prop :=
  ∀ ty : String, plain ((d.ResourceTypesToProxyLabels.lookup ty).getD "") = true ∧
    (d.ResourceTypesToProxyLabels.lookup ty).getD "" ≠ "direction" ∧
    ((d.ResourceTypesToProxyLabels.lookup ty).getD "").data.take 4 ≠ "dst_".data ∧
    ((d.ResourceTypesToProxyLabels.lookup ty).getD "" = "namespace" → ty = d.Namespaces)

/-- The names and namespaces among the parts are plain words. -/
def ReadParts.plainValues (parts : ReadParts) : Bool :=
  (parts.own ++ parts.dst).all fun b => plain b.2

/-! ## Lemmas on `processRequests` -/

theorem lookup_processSample (d : Deps) (g : LabelNames) (p : promType) (m : GoMap BasicStats)
    (s : Sample) (k : String) :
    (processSample d g p m s).lookup k =
      if metricToKey s.Metric g = k then some (routeSample d p s ((m.lookup k).getD {}))
      else m.lookup k := by
  unfold processSample routeSample
  by_cases hk : metricToKey s.Metric g = k
  · subst hk
    by_cases hm : m.lookup (metricToKey s.Metric g) = none
    · simp only [hm, ↓reduceIte]
      split_ifs <;> simp [AList.lookup_insert]
    · obtain ⟨b, hb⟩ := Option.ne_none_iff_exists'.mp hm
      simp only [hb, reduceCtorEq, ↓reduceIte]
      split_ifs <;> simp [AList.lookup_insert, hb]
  · have hne : k ≠ metricToKey s.Metric g := Ne.symm hk
    simp only [hk, ↓reduceIte]
    split_ifs <;> simp [AList.lookup_insert_ne hne]

theorem get_routeSample (d : Deps) (p : promType) (s : Sample) (b : BasicStats) (f : Field) :
    f.get (routeSample d p s b) =
      if p = f.kind ∧ f.accepts s = true then sampleCount d s.Value else f.get b := by
  unfold routeSample
  cases f <;> simp only [Field.get, Field.kind, Field.accepts] <;> split_ifs <;>
    simp_all [promRequests, promLatencyP50, promLatencyP95, promLatencyP99]

theorem foldl_results_eq (d : Deps) (g : LabelNames) (rs : List promResult)
    (m : GoMap BasicStats) :
    rs.foldl (fun basicStats result =>
        result.vec.foldl (processSample d g result.prom) basicStats) m =
      (samplesOf rs).foldl (fun m st => processSample d g st.1 m st.2) m := by
  induction rs generalizing m with
  | nil => rfl
  | cons r rs ih =>
    simp only [List.foldl_cons, samplesOf, List.flatMap_cons, List.foldl_append, List.foldl_map]
    exact ih _

theorem lookup_foldl_processSample (d : Deps) (g : LabelNames) (k : String)
    (steps : List (promType × Sample)) (m : GoMap BasicStats) :
    (steps.foldl (fun m st => processSample d g st.1 m st.2) m).lookup k =
      steps.foldl (keyStep d g k) (m.lookup k) := by
  induction steps generalizing m with
  | nil => rfl
  | cons st steps ih =>
    simp only [List.foldl_cons, ih, lookup_processSample, keyStep]

theorem lookup_processRequests (d : Deps) (g : LabelNames) (rs : List promResult) (k : String) :
    (processRequests d rs g).lookup k = (samplesOf rs).foldl (keyStep d g k) none := by
  unfold processRequests
  rw [foldl_results_eq, lookup_foldl_processSample]
  rfl

theorem isSome_foldl_keyStep (d : Deps) (g : LabelNames) (k : String)
    (steps : List (promType × Sample)) (o : Option BasicStats) :
    (steps.foldl (keyStep d g k) o).isSome =
      (o.isSome || steps.any fun st => metricToKey st.2.Metric g = k) := by
  induction steps generalizing o with
  | nil => simp
  | cons st steps ih =>
    simp only [List.foldl_cons, ih, List.any_cons, keyStep]
    by_cases h : metricToKey st.2.Metric g = k <;> simp [h]

theorem get_foldl_keyStep (d : Deps) (g : LabelNames) (k : String) (f : Field)
    (steps : List (promType × Sample)) (o : Option BasicStats) :
    f.get ((steps.foldl (keyStep d g k) o).getD {}) =
      steps.foldl (fun acc st =>
        if (metricToKey st.2.Metric g = k && (st.1 = f.kind && f.accepts st.2)) = true then
          sampleCount d st.2.Value else acc) (f.get (o.getD {})) := by
  induction steps generalizing o with
  | nil => rfl
  | cons st steps ih =>
    simp only [List.foldl_cons, ih]
    congr 1
    unfold keyStep
    by_cases h : metricToKey st.2.Metric g = k
    · simp [h, get_routeSample]
    · simp [h]

theorem foldl_last {α : Type} (P : α → Bool) (val : α → Nat) (l : List α) (a : Nat) :
    l.foldl (fun acc x => if P x = true then val x else acc) a =
      (((l.filter P).getLast?).map val).getD a := by
  induction l generalizing a with
  | nil => rfl
  | cons x l ih =>
    simp only [List.foldl_cons, ih]
    by_cases h : P x = true
    · simp only [h, if_true, List.filter_cons_of_pos, List.getLast?_cons]
      cases (l.filter P).getLast? <;> simp
    · simp [h]

theorem filter_samplesOf (g : LabelNames) (k : String) (f : Field) (rs : List promResult) :
    (samplesOf rs).filter (fun st =>
        metricToKey st.2.Metric g = k && (st.1 = f.kind && f.accepts st.2)) =
      ((vectorOf rs f.kind).filter fun s => metricToKey s.Metric g = k && f.accepts s).map
        (Prod.mk f.kind) := by
  induction rs with
  | nil => rfl
  | cons r rs ih =>
    have hs : samplesOf (r :: rs) = (r.vec.map fun s => (r.prom, s)) ++ samplesOf rs := by
      simp [samplesOf]
    rw [hs, List.filter_append, ih]
    by_cases h : r.prom = f.kind
    · have hv : vectorOf (r :: rs) f.kind = r.vec ++ vectorOf rs f.kind := by
        simp [vectorOf, h]
      rw [hv, List.filter_append, List.map_append, List.filter_map]
      congr 1
      simp [h, Function.comp_def]
    · have hv : vectorOf (r :: rs) f.kind = vectorOf rs f.kind := by
        simp [vectorOf, h]
      rw [hv]
      have : (r.vec.map fun s => (r.prom, s)).filter (fun st =>
          metricToKey st.2.Metric g = k && (st.1 = f.kind && f.accepts st.2)) = [] := by
        simp [List.filter_eq_nil_iff, h]
      rw [this, List.nil_append]

theorem Field.get_zero (f : Field) : f.get {} = 0 := by
  cases f <;> rfl

/-- Every counter of the record `processRequests` stores at a key is the counter of the last
sample routed to it. -/
theorem get_processRequests (d : Deps) (g : LabelNames) (rs : List promResult) (k : String)
    (f : Field) (b : BasicStats) (h : (processRequests d rs g).lookup k = some b) :
    f.get b = lastCount d g (vectorOf rs f.kind) k f.accepts := by
  have h1 := get_foldl_keyStep d g k f (samplesOf rs) none
  rw [← lookup_processRequests, h] at h1
  simp only [Option.getD_some] at h1
  rw [h1, foldl_last (fun st : promType × Sample =>
      metricToKey st.2.Metric g = k && (st.1 = f.kind && f.accepts st.2))
    (fun st => sampleCount d st.2.Value), filter_samplesOf]
  simp [lastCount, Field.get_zero, List.getLast?_map, Function.comp_def]

/-- A key is in the mapping exactly when a sample of a result has it. -/
theorem mem_processRequests (d : Deps) (g : LabelNames) (rs : List promResult) (k : String) :
    k ∈ processRequests d rs g ↔ ∃ r ∈ rs, ∃ s ∈ r.vec, metricToKey s.Metric g = k := by
  rw [← AList.lookup_isSome, lookup_processRequests, isSome_foldl_keyStep]
  simp [samplesOf]

theorem filter_eq_of_perm_of_nodup {α β : Type} [DecidableEq β] (φ : α → β) (c : β)
    {l l' : List α} (hn : (l.map φ).Nodup) (hp : l'.Perm l) :
    l'.filter (fun a => φ a = c) = l.filter (fun a => φ a = c) := by
  have hp' := hp.filter (fun a => decide (φ a = c))
  have hsub : ((l.filter fun a => decide (φ a = c)).map φ).Nodup :=
    hn.sublist ((List.filter_sublist l).map φ)
  have hmem : ∀ a ∈ l.filter (fun a => decide (φ a = c)), φ a = c := by
    intro a ha
    simpa using (List.mem_filter.mp ha).2
  generalize l.filter (fun a => decide (φ a = c)) = A at hp' hsub hmem
  match A, hp', hsub, hmem with
  | [], hp', _, _ => exact hp'.eq_nil
  | [a], hp', _, _ => exact List.perm_singleton.mp hp'
  | a :: b :: t, _, hsub, hmem =>
    exfalso
    have ha := hmem a (by simp)
    have hb := hmem b (by simp)
    simp [ha, hb] at hsub

theorem vectorOf_perm {rs rs' : List promResult} (hn : (rs.map fun r => r.prom).Nodup)
    (hp : rs'.Perm rs) (kind : promType) : vectorOf rs' kind = vectorOf rs kind := by
  unfold vectorOf
  rw [filter_eq_of_perm_of_nodup (fun r : promResult => r.prom) kind hn hp]

theorem getLast?_filter_of_nodup {α β : Type} (φ : α → β) (c : β) (P : α → Bool) (l : List α)
    (hn : (l.map φ).Nodup) (hP : ∀ a, P a = true → φ a = c) :
    (l.filter P).getLast? = l.find? P := by
  induction l with
  | nil => rfl
  | cons a l ih =>
    rw [List.map_cons, List.nodup_cons] at hn
    by_cases h : P a = true
    · have hnil : l.filter P = [] := by
        rw [List.filter_eq_nil_iff]
        intro b hb hPb
        exact hn.1 (List.mem_map.mpr ⟨b, hb, by rw [hP b hPb, hP a h]⟩)
      simp [h, hnil]
    · simp [h, ih hn.2]

theorem lastCount_eq_countOf {β : Type} (d : Deps) (g : LabelNames) (vec : Vector) (k : String)
    (accept : Sample → Bool) (φ : Sample → β) (c : β) (hn : (vec.map φ).Nodup)
    (hP : ∀ s, (decide (metricToKey s.Metric g = k) && accept s) = true → φ s = c) :
    lastCount d g vec k accept = countOf d g vec k accept := by
  unfold lastCount countOf
  rw [getLast?_filter_of_nodup φ c _ vec hn hP]
  cases vec.find? fun s => decide (metricToKey s.Metric g = k) && accept s <;> rfl

theorem basicStats_eq_of_get {b b' : BasicStats} (h : ∀ f : Field, f.get b = f.get b') :
    b = b' := by
  have h1 := h .SuccessCount
  have h2 := h .FailureCount
  have h3 := h .LatencyMsP50
  have h4 := h .LatencyMsP95
  have h5 := h .LatencyMsP99
  cases b
  cases b'
  simp_all [Field.get]

theorem promTypes_nodup : promTypes.Nodup := by decide

theorem vectorOf_four (volume p50 p95 p99 : Vector) (rs : List promResult)
    (hrs : rs.Perm [⟨promRequests, volume, none⟩, ⟨promLatencyP50, p50, none⟩,
      ⟨promLatencyP95, p95, none⟩, ⟨promLatencyP99, p99, none⟩]) :
    vectorOf rs promRequests = volume ∧ vectorOf rs promLatencyP50 = p50 ∧
      vectorOf rs promLatencyP95 = p95 ∧ vectorOf rs promLatencyP99 = p99 := by
  have hn : (([⟨promRequests, volume, none⟩, ⟨promLatencyP50, p50, none⟩,
      ⟨promLatencyP95, p95, none⟩, ⟨promLatencyP99, p99, none⟩] : List promResult).map
        fun r => r.prom).Nodup := by
    simp [promRequests, promLatencyP50, promLatencyP95, promLatencyP99]
  refine ⟨?_, ?_, ?_, ?_⟩ <;> rw [vectorOf_perm hn hrs] <;>
    simp [vectorOf, promRequests, promLatencyP50, promLatencyP95, promLatencyP99]

/-! ## Lemmas on `objectQuery` -/

theorem lookup_of_mem_entries {V : Type} (m : GoMap V) (e : (_ : String) × V)
    (he : e ∈ m.entries) : m.lookup e.1 = some e.2 := by
  have : e.2 ∈ m.lookup e.1 := AList.mem_lookup_iff.mpr he
  exact this

theorem filterMap_rowFor_keys (req : StatSummaryRequest) (objects : GoMap ObjectMeta)
    (meshCount : GoMap meshedCount) (requestMetrics : GoMap BasicStats) :
    objects.keys.filterMap (rowFor req objects meshCount requestMetrics) =
      objects.entries.map fun e => makeRow req meshCount requestMetrics e.1 e.2 := by
  unfold AList.keys List.keys
  rw [List.filterMap_map, ← List.filterMap_eq_map]
  apply List.filterMap_congr
  intro e he
  simp [rowFor, lookup_of_mem_entries objects e he]

theorem rowKeys_unfiltered (req : StatSummaryRequest) (objects : GoMap ObjectMeta)
    (requestMetrics : GoMap BasicStats)
    (hdir : req.Outbound = none ∨ req.Outbound = some (.None (some ()))) :
    rowKeys req objects requestMetrics = objects.keys := by
  unfold rowKeys StatSummaryRequest.GetNone StatSummaryRequest.GetOutbound
  rcases hdir with h | h <;> simp [h]

theorem rowKeys_filtered (req : StatSummaryRequest) (objects : GoMap ObjectMeta)
    (requestMetrics : GoMap BasicStats) (r : Resource)
    (hdir : req.Outbound = some (.ToResource r) ∨ req.Outbound = some (.FromResource r)) :
    rowKeys req objects requestMetrics = requestMetrics.keys := by
  unfold rowKeys StatSummaryRequest.GetNone StatSummaryRequest.GetOutbound
  rcases hdir with h | h <;> simp [h]

theorem makeRow_fields (req : StatSummaryRequest) (meshCount : GoMap meshedCount)
    (requestMetrics : GoMap BasicStats) (key : String) (resource : ObjectMeta) :
    (makeRow req meshCount requestMetrics key resource).Resource =
        { Namespace := resource.Namespace, Type_ := req.Selector.Resource.Type_,
          Name := resource.Name } ∧
      (makeRow req meshCount requestMetrics key resource).TimeWindow = req.TimeWindow ∧
      (makeRow req meshCount requestMetrics key resource).Stats = requestMetrics.lookup key := by
  unfold makeRow
  cases meshCount.lookup key <;> simp

theorem forall₂_filter_filterMap {α β : Type} (f : α → Option β) (l : List α) :
    List.Forall₂ (fun a b => a ∈ l ∧ f a = some b) (l.filter fun a => (f a).isSome)
      (l.filterMap f) := by
  induction l with
  | nil => exact List.Forall₂.nil
  | cons x l ih =>
    have ih' : List.Forall₂ (fun a b => a ∈ x :: l ∧ f a = some b)
        (l.filter fun a => (f a).isSome) (l.filterMap f) :=
      List.Forall₂.imp (fun _ _ h => ⟨List.mem_cons_of_mem x h.1, h.2⟩) ih
    cases hx : f x with
    | none => simpa [hx] using ih'
    | some y =>
      simp only [List.filter_cons, hx, Option.isSome_some, if_true, List.filterMap_cons]
      exact List.Forall₂.cons ⟨List.mem_cons_self x l, hx⟩ ih'

/-- For a request whose direction filter is unset or is the `None` variant with its payload,
`objectQuery` answers with one row per entry of the discovered-object map, whatever the
statistics mapping is: the row of an entry names the entry's object and carries the record the
statistics mapping has at the entry's key; where the mapping has no record the row's record is
nil, which reads as the zero record. -/
theorem objectQuery_rows_all_objects (d : Deps) (s : grpcServer) (arr : Arrival)
    (req : StatSummaryRequest) (objects : GoMap ObjectMeta) (meshCount : GoMap meshedCount)
    (requestMetrics : GoMap BasicStats)
    (hdir : req.Outbound = none ∨ req.Outbound = some (.None (some ())))
    (hmetrics : getRequests d s arr req req.TimeWindow = .ok requestMetrics) :
    ∃ rows, objectQuery d s arr req objects meshCount = .ok { StatTables := [{ Rows := rows }] } ∧
      rows.length = objects.entries.length ∧
      List.Forall₂
        (fun (e : (_ : String) × ObjectMeta) (row : Row) =>
          row.Resource.Namespace = e.2.Namespace ∧ row.Resource.Name = e.2.Name ∧
          row.Stats = requestMetrics.lookup e.1 ∧
          (e.1 ∉ requestMetrics.keys → row.Stats = none ∧ ∀ f, statsCounter f row.Stats = 0))
        objects.entries rows := by
  refine ⟨objects.entries.map fun e => makeRow req meshCount requestMetrics e.1 e.2, ?_, ?_, ?_⟩
  · unfold objectQuery
    rw [hmetrics]
    simp only [rowKeys_unfiltered req objects requestMetrics hdir, filterMap_rowFor_keys]
  · simp
  · rw [List.forall₂_map_right_iff, List.forall₂_same]
    intro e _
    obtain ⟨h1, _, h3⟩ := makeRow_fields req meshCount requestMetrics e.1 e.2
    refine ⟨by rw [h1], by rw [h1], h3, fun hno => ?_⟩
    have hnone : requestMetrics.lookup e.1 = none :=
      AList.lookup_eq_none.mpr (fun h => hno (AList.mem_keys.mp h))
    rw [h3, hnone]
    exact ⟨rfl, fun f => rfl⟩

theorem rowKeys_eq (req : StatSummaryRequest) (objects : GoMap ObjectMeta)
    (requestMetrics : GoMap BasicStats) :
    rowKeys req objects requestMetrics =
      if req.Outbound = none ∨ req.Outbound = some (.None (some ())) then objects.keys
      else requestMetrics.keys := by
  unfold rowKeys StatSummaryRequest.GetNone StatSummaryRequest.GetOutbound
  rcases h : req.Outbound with _ | ⟨_ | _⟩ | _ | _ <;> simp

theorem isSome_rowFor (req : StatSummaryRequest) (objects : GoMap ObjectMeta)
    (meshCount : GoMap meshedCount) (requestMetrics : GoMap BasicStats) (key : String) :
    (rowFor req objects meshCount requestMetrics key).isSome = decide (key ∈ objects.keys) := by
  unfold rowFor
  by_cases h : key ∈ objects.keys
  · obtain ⟨resource, hr⟩ := Option.isSome_iff_exists.mp (AList.lookup_isSome.mpr (AList.mem_keys.mpr h))
    simp [hr, h]
  · have : objects.lookup key = none := AList.lookup_eq_none.mpr (fun hk => h (AList.mem_keys.mp hk))
    simp [this, h]

/-! ## Lemmas on the label sets -/

theorem lookup_insert_eq {V : Type} (m : GoMap V) (k k' : String) (v : V) :
    (m.insert k' v).lookup k = if k = k' then some v else m.lookup k := by
  by_cases h : k = k'
  · subst h
    simp [AList.lookup_insert]
  · simp [h, AList.lookup_insert_ne h]

theorem lookup_Merge (l other : LabelSet) (k : String) :
    (l.Merge other).lookup k =
      match other.lookup k with
      | some v => some v
      | none => l.lookup k := by
  unfold LabelSet.Merge
  cases h : other.lookup k with
  | none => exact AList.lookup_union_right (AList.lookup_eq_none.mp h)
  | some v =>
    have hmem : k ∈ other := AList.lookup_isSome.mp (by simp [h])
    rw [AList.lookup_union_left hmem, h]

theorem lookup_promLabels (d : Deps) (r : Resource) (k : String) :
    (promLabels d r).lookup k =
      if k = "namespace" ∧ r.Type_ ≠ d.Namespaces ∧ r.Namespace ≠ "" then some r.Namespace
      else if k = promResourceType d r ∧ r.Name ≠ "" then some r.Name
      else none := by
  unfold promLabels namespaceLabel
  simp only [apply_ite (AList.lookup k), lookup_insert_eq, AList.lookup_empty]
  split_ifs <;> simp_all

theorem lookup_promDstLabels (d : Deps) (r : Resource) (k : String) :
    (promDstLabels d r).lookup k =
      if k = "dst_namespace" ∧ r.Type_ ≠ d.Namespaces ∧ r.Namespace ≠ "" then some r.Namespace
      else if k = "dst_" ++ promResourceType d r ∧ r.Name ≠ "" then some r.Name
      else none := by
  unfold promDstLabels dstNamespaceLabel
  simp only [apply_ite (AList.lookup k), lookup_insert_eq, AList.lookup_empty]
  split_ifs <;> simp_all

theorem lookup_promDirectionLabels (direction k : String) :
    (promDirectionLabels direction).lookup k = if k = "direction" then some direction else none := by
  unfold promDirectionLabels
  rw [lookup_insert_eq, AList.lookup_empty]

theorem dst_ne_namespace (x : String) : "dst_" ++ x ≠ "namespace" := by
  intro h
  have := congrArg String.data h
  simp at this

theorem dst_ne_direction (x : String) : "dst_" ++ x ≠ "direction" := by
  intro h
  have := congrArg String.data h
  simp at this

theorem dst_eq_dst_namespace (x : String) : "dst_" ++ x = "dst_namespace" ↔ x = "namespace" := by
  constructor
  · intro h
    have := congrArg String.data h
    simp at this
    exact String.ext this
  · rintro rfl
    rfl

theorem lookup_empty_Merge (other : LabelSet) (k : String) :
    ((∅ : LabelSet).Merge other).lookup k = other.lookup k := by
  rw [lookup_Merge, AList.lookup_empty]
  cases other.lookup k <;> rfl

theorem lookup_Merge_of_disjoint (l other : LabelSet) (k v : String)
    (hdis : ∀ w, l.lookup k = some w → other.lookup k = none) :
    (l.Merge other).lookup k = some v ↔ other.lookup k = some v ∨ l.lookup k = some v := by
  rw [lookup_Merge]
  cases ho : other.lookup k with
  | none => simp
  | some w =>
    have hl : l.lookup k ≠ some v := fun h => by
      have := hdis v h
      rw [ho] at this
      exact Option.noConfusion this
    simp [hl]

theorem lookup_promDirectionLabels_iff (direction k v : String) :
    (promDirectionLabels direction).lookup k = some v ↔ k = "direction" ∧ v = direction := by
  rw [lookup_promDirectionLabels]
  split_ifs with h <;> simp [h, eq_comm]

theorem lookup_promLabels_iff (d : Deps) (r : Resource) (k v : String)
    (h : r.Type_ ≠ d.Namespaces → promResourceType d r ≠ "namespace") :
    (promLabels d r).lookup k = some v ↔
      (k = promResourceType d r ∧ v = r.Name ∧ r.Name ≠ "") ∨
      (k = "namespace" ∧ v = r.Namespace ∧ r.Type_ ≠ d.Namespaces ∧ r.Namespace ≠ "") := by
  rw [lookup_promLabels]
  split_ifs <;> simp_all <;> tauto

theorem lookup_promDstLabels_iff (d : Deps) (r : Resource) (k v : String)
    (h : r.Type_ ≠ d.Namespaces → promResourceType d r ≠ "namespace") :
    (promDstLabels d r).lookup k = some v ↔
      (k = "dst_" ++ promResourceType d r ∧ v = r.Name ∧ r.Name ≠ "") ∨
      (k = "dst_namespace" ∧ v = r.Namespace ∧ r.Type_ ≠ d.Namespaces ∧ r.Namespace ≠ "") := by
  rw [lookup_promDstLabels]
  have h3 := dst_eq_dst_namespace (promResourceType d r)
  split_ifs <;> simp_all <;> tauto

theorem direction_disjoint (d : Deps) (r : Resource) (direction name : String)
    (h₁ : promResourceType d r ≠ "direction")
    (h₂ : r.Type_ ≠ d.Namespaces → promResourceType d r ≠ "namespace") :
    ∀ w, ((∅ : LabelSet).Merge (promLabels d r)).lookup name = some w →
      (promDirectionLabels direction).lookup name = none := by
  intro w hw
  rw [lookup_empty_Merge] at hw
  have hne : name ≠ "direction" := by
    rcases (lookup_promLabels_iff d r name w h₂).mp hw with h | h
    · exact h.1 ▸ h₁
    · rw [h.1]; decide
  rw [lookup_promDirectionLabels, if_neg hne]

theorem buildRequestLabels_default (d : Deps) (req : StatSummaryRequest) (payload : Option Unit)
    (hdir : req.Outbound = none ∨ req.Outbound = some (.None payload)) :
    buildRequestLabels d req =
      (((∅ : LabelSet).Merge (promLabels d req.Selector.Resource)).Merge
        (promDirectionLabels "inbound"), promLabelNames d req.Selector.Resource) := by
  unfold buildRequestLabels
  rcases hdir with h | h <;> rw [h]

theorem promLabelNames_eq (d : Deps) (r : Resource) :
    promLabelNames d r =
      if r.Type_ = d.Namespaces then ["namespace"] else ["namespace", promResourceType d r] := by
  unfold promLabelNames namespaceLabel
  by_cases h : r.Type_ = d.Namespaces <;> simp [h]

theorem promDstLabelNames_eq (d : Deps) (r : Resource) :
    promDstLabelNames d r =
      if r.Type_ = d.Namespaces then ["dst_namespace"]
      else ["dst_namespace", "dst_" ++ promResourceType d r] := by
  unfold promDstLabelNames dstNamespaceLabel
  by_cases h : r.Type_ = d.Namespaces <;> simp [h]

/-! ## Lemmas on `getRequests` and on the scenario -/

theorem drain_foldl_ok (l : List promResult) (e : Option Error) (acc : List promResult)
    (h : ∀ r ∈ l, r.err = none) :
    l.foldl
      (fun acc result =>
        match result.err with
        | some e => (some e, acc.2)
        | none => (acc.1, acc.2 ++ [result]))
      (e, acc) = (e, acc ++ l) := by
  induction l generalizing acc with
  | nil => simp
  | cons r l ih =>
    have hr : r.err = none := h r (List.mem_cons_self r l)
    simp only [List.foldl_cons, hr]
    rw [ih _ fun x hx => h x (List.mem_cons_of_mem r hx)]
    simp

theorem drain_ok (l : List promResult) (h : ∀ r ∈ l, r.err = none) : drain l = (none, l) := by
  unfold drain
  rw [drain_foldl_ok l none [] h]
  rfl

theorem getRequests_ok (d : Deps) (s : grpcServer) (arr : Arrival) (req : StatSummaryRequest)
    (timeWindow : String) (vec : promType → Vector)
    (h : ∀ kind ∈ promTypes,
      queryTask d s (buildRequestLabels d req).1 timeWindow (buildRequestLabels d req).2 kind =
        ⟨kind, vec kind, none⟩) :
    getRequests d s arr req timeWindow =
      .ok (processRequests d (arr.order.map fun kind => ⟨kind, vec kind, none⟩)
        (buildRequestLabels d req).2) := by
  unfold getRequests
  have hmap : arr.order.map
      (queryTask d s (buildRequestLabels d req).1 timeWindow (buildRequestLabels d req).2) =
      arr.order.map fun kind => ⟨kind, vec kind, none⟩ :=
    List.map_congr_left fun kind hk => h kind (arr.perm.mem_iff.mp hk)
  simp only [hmap]
  rw [drain_ok]
  intro r hr
  obtain ⟨kind, _, rfl⟩ := List.mem_map.mp hr
  rfl

theorem sampleCount_finite (d : Deps) (n : Nat) (h : n < 2 ^ 64) :
    sampleCount d (.finite false n 0) = n := by
  have h' : ¬ 2 ^ 64 ≤ n := Nat.not_le.mpr h
  by_cases h0 : n = 0
  · subst h0
    rfl
  · simp only [sampleCount, SampleValue.IsNaN, SampleValue.Round, toUint64]
    have hr : roundMagnitude n 0 = n := by
      show n * 2 ^ 0 = n
      simp
    have ht : truncMagnitude n 0 = n := by
      show n * 2 ^ 0 = n
      simp
    simp only [hr, ht, h0, Bool.false_eq_true, false_or, if_false, if_neg h']

theorem scenario_labelNames (d : Deps) (ty tw : String) (out : Option Outbound)
    (payload : Option Unit) (hdir : out = none ∨ out = some (.None payload))
    (hns : ty ≠ d.Namespaces)
    (hlabel : d.ResourceTypesToProxyLabels.lookup ty = some "deployment") :
    (buildRequestLabels d (scenarioRequest ty tw out)).2 = ["namespace", "deployment"] := by
  rw [buildRequestLabels_default d (scenarioRequest ty tw out) payload hdir]
  simp [scenarioRequest, promLabelNames, promResourceType, hns, hlabel, namespaceLabel]

theorem scenario_queryTask (d : Deps) (s : grpcServer) (ty tw : String) (out : Option Outbound)
    (hquery : ∀ kind ∈ promTypes,
      s.Query (queryFor d (buildRequestLabels d (scenarioRequest ty tw out)).1 tw
          (buildRequestLabels d (scenarioRequest ty tw out)).2 kind) =
        .ok (.Vector (scenarioVector kind))) :
    ∀ kind ∈ promTypes,
      queryTask d s (buildRequestLabels d (scenarioRequest ty tw out)).1 tw
          (buildRequestLabels d (scenarioRequest ty tw out)).2 kind =
        ⟨kind, scenarioVector kind, none⟩ := by
  intro kind hk
  unfold queryTask queryProm
  simp only [hquery kind hk]

theorem scenario_results_perm (arr : Arrival) :
    (arr.order.map fun kind => (⟨kind, scenarioVector kind, none⟩ : promResult)).Perm
      [⟨promRequests, scenarioVector promRequests, none⟩,
        ⟨promLatencyP50, scenarioVector promLatencyP50, none⟩,
        ⟨promLatencyP95, scenarioVector promLatencyP95, none⟩,
        ⟨promLatencyP99, scenarioVector promLatencyP99, none⟩] :=
  arr.perm.map _

theorem scenario_lookup_web_a (d : Deps) (arr : Arrival) :
    (processRequests d (arr.order.map fun kind => ⟨kind, scenarioVector kind, none⟩)
        ["namespace", "deployment"]).lookup "ns1/web-a" =
      some { SuccessCount := 10, FailureCount := 2, LatencyMsP50 := 5, LatencyMsP95 := 20,
             LatencyMsP99 := 50 } := by
  have hperm := scenario_results_perm arr
  obtain ⟨hv, h50, h95, h99⟩ := vectorOf_four _ _ _ _ _ hperm
  have hmem : "ns1/web-a" ∈ processRequests d
      (arr.order.map fun kind => ⟨kind, scenarioVector kind, none⟩) ["namespace", "deployment"] := by
    rw [mem_processRequests]
    refine ⟨⟨promLatencyP50, scenarioVector promLatencyP50, none⟩,
      hperm.mem_iff.mpr (by simp), scenarioSample "web-a" none 5, List.mem_singleton.mpr rfl,
      by decide⟩
  obtain ⟨b, hb⟩ := Option.isSome_iff_exists.mp (AList.lookup_isSome.mpr hmem)
  rw [hb]
  congr 1
  apply basicStats_eq_of_get
  intro f
  rw [get_processRequests d _ _ _ f b hb]
  cases f
  · rw [show Field.SuccessCount.kind = promRequests from rfl, hv]
    rfl
  · rw [show Field.FailureCount.kind = promRequests from rfl, hv]
    rfl
  · rw [show Field.LatencyMsP50.kind = promLatencyP50 from rfl, h50]
    rfl
  · rw [show Field.LatencyMsP95.kind = promLatencyP95 from rfl, h95]
    rfl
  · rw [show Field.LatencyMsP99.kind = promLatencyP99 from rfl, h99]
    rfl

theorem scenario_lookup_web_b (d : Deps) (arr : Arrival) :
    (processRequests d (arr.order.map fun kind => ⟨kind, scenarioVector kind, none⟩)
        ["namespace", "deployment"]).lookup "ns1/web-b" = none := by
  rw [AList.lookup_eq_none, mem_processRequests]
  rintro ⟨r, hr, s, hs, hkey⟩
  have hr' := (scenario_results_perm arr).mem_iff.mp hr
  simp only [List.mem_cons, List.mem_singleton, List.not_mem_nil, or_false] at hr'
  rcases hr' with rfl | rfl | rfl | rfl
  · have hs' : s ∈ [scenarioSample "web-a" (some "success") 10,
        scenarioSample "web-a" (some "failure") 2] := hs
    simp only [List.mem_cons, List.mem_singleton, List.not_mem_nil, or_false] at hs'
    rcases hs' with rfl | rfl <;> exact absurd hkey (by decide)
  · have hs' : s ∈ [scenarioSample "web-a" none 5] := hs
    rw [List.mem_singleton] at hs'
    subst hs'
    exact absurd hkey (by decide)
  · have hs' : s ∈ [scenarioSample "web-a" none 20] := hs
    rw [List.mem_singleton] at hs'
    subst hs'
    exact absurd hkey (by decide)
  · have hs' : s ∈ [scenarioSample "web-a" none 50] := hs
    rw [List.mem_singleton] at hs'
    subst hs'
    exact absurd hkey (by decide)

theorem scenario_addObject (d : Deps) (s : grpcServer) (name : String) (pods : List Pod)
    (maps : GoMap ObjectMeta × GoMap meshedCount)
    (hpods : s.GetPodsFor (scenarioObject name) = .ok pods) :
    ∃ count, addObject d s maps (scenarioObject name) =
      .ok (maps.1.insert ("ns1/" ++ name) { Namespace := "ns1", Name := name },
        maps.2.insert ("ns1/" ++ name) count) := by
  unfold addObject getMeshedPodCount
  rw [hpods]
  exact ⟨_, rfl⟩

/-! ## Lemmas on the rounding -/

theorem roundMagnitude_nearest (mant : Nat) (exp : Int) :
    (roundMagnitude mant exp : ℚ) - 1 / 2 ≤ magnitude mant exp ∧
      magnitude mant exp < (roundMagnitude mant exp : ℚ) + 1 / 2 := by
  cases exp with
  | ofNat e =>
    have h : magnitude mant (Int.ofNat e) = (roundMagnitude mant (Int.ofNat e) : ℚ) := by
      simp [magnitude, roundMagnitude]
    rw [h]
    constructor <;> linarith
  | negSucc e =>
    have hH : (0 : ℚ) < 2 ^ e := by positivity
    have hm : magnitude mant (Int.negSucc e) = (mant : ℚ) / (2 * 2 ^ e) := by
      simp [magnitude, zpow_negSucc, div_eq_mul_inv, pow_succ, mul_comm]
    have hdm := Nat.div_add_mod (mant + 2 ^ e) (2 ^ (e + 1))
    have hlt : (mant + 2 ^ e) % 2 ^ (e + 1) < 2 ^ (e + 1) := Nat.mod_lt _ (by positivity)
    have hr : roundMagnitude mant (Int.negSucc e) = (mant + 2 ^ e) / 2 ^ (e + 1) := rfl
    rw [hm, hr]
    generalize (mant + 2 ^ e) / 2 ^ (e + 1) = r at hdm
    generalize (mant + 2 ^ e) % 2 ^ (e + 1) = q at hdm hlt
    have hdm' : (2 * 2 ^ e : ℚ) * r + q = mant + 2 ^ e := by
      have := congrArg (Nat.cast : ℕ → ℚ) hdm
      push_cast at this
      rw [pow_succ] at this
      linarith
    have hlt' : (q : ℚ) < 2 * 2 ^ e := by
      have : ((q : ℕ) : ℚ) < ((2 ^ (e + 1) : ℕ) : ℚ) := by exact_mod_cast hlt
      push_cast at this
      rw [pow_succ] at this
      linarith
    have hq0 : (0 : ℚ) ≤ q := Nat.cast_nonneg q
    have hpos : (0 : ℚ) < 2 * 2 ^ e := by positivity
    constructor
    · rw [le_div_iff₀ hpos]
      nlinarith
    · rw [div_lt_iff₀ hpos]
      nlinarith

theorem sampleCount_nonneg (d : Deps) (mant : Nat) (exp : Int)
    (h : roundMagnitude mant exp < 2 ^ 64) :
    sampleCount d (.finite false mant exp) = roundMagnitude mant exp := by
  have ht : truncMagnitude (roundMagnitude mant exp) 0 = roundMagnitude mant exp := by
    show roundMagnitude mant exp * 2 ^ 0 = roundMagnitude mant exp
    simp
  have h' : ¬ 2 ^ 64 ≤ roundMagnitude mant exp := Nat.not_le.mpr h
  simp only [sampleCount, SampleValue.IsNaN, SampleValue.Round, toUint64, ht,
    Bool.false_eq_true, false_or, if_false, if_neg h']
  split_ifs with h0
  · exact h0.symm
  · rfl

theorem sampleCount_lt (d : Deps) (v : SampleValue) : sampleCount d v < 2 ^ 64 := by
  unfold sampleCount
  split_ifs
  · positivity
  · unfold toUint64
    split
    · dsimp only
      split_ifs with h1 h2
      · positivity
      · exact Nat.mod_lt _ (by positivity)
      · simp only [not_or, Nat.not_le] at h2
        exact h2.2
    · exact Nat.mod_lt _ (by positivity)

/-! ## Lemmas on the keys -/

theorem length_pos_of_ne_empty (s : String) (h : s ≠ "") : s.length > 0 := by
  cases s with
  | mk data =>
    cases data with
    | nil => exact absurd rfl h
    | cons c cs => simp [String.length]

theorem MetaNamespaceKeyFunc_namespaced (ns n : String) (h : ns ≠ "") :
    MetaNamespaceKeyFunc { Meta := some { Namespace := ns, Name := n } } =
      .ok (ns ++ "/" ++ n) := by
  simp [MetaNamespaceKeyFunc, length_pos_of_ne_empty ns h]

theorem MetaNamespaceKeyFunc_cluster (n : String) :
    MetaNamespaceKeyFunc { Meta := some { Namespace := "", Name := n } } = .ok n := by
  simp [MetaNamespaceKeyFunc]

theorem groupBy_eq (d : Deps) (req : StatSummaryRequest) :
    (buildRequestLabels d req).2 =
      match req.Outbound with
      | some (.FromResource _) => promDstLabelNames d req.Selector.Resource
      | _ => promLabelNames d req.Selector.Resource := by
  unfold buildRequestLabels
  rcases h : req.Outbound with _ | _ | _ | _ <;> rfl

theorem metricToKey_of_carriesIdentity (d : Deps) (req : StatSummaryRequest) (sample : Sample)
    (ns n : String) (hsample : carriesIdentity d req sample ns n = true) :
    metricToKey sample.Metric (buildRequestLabels d req).2 =
      if req.Selector.Resource.Type_ = d.Namespaces then n else ns ++ "/" ++ n := by
  rw [groupBy_eq]
  unfold carriesIdentity at hsample
  rcases h : req.Outbound with _ | _ | _ | _ <;> simp only [h] at hsample ⊢ <;>
    by_cases hty : req.Selector.Resource.Type_ = d.Namespaces <;>
    simp only [hty, if_true, if_false, Bool.and_eq_true, beq_iff_eq] at hsample ⊢ <;>
    simp [promLabelNames_eq, promDstLabelNames_eq, hty, metricToKey, hsample] <;> rfl

/-! ## Lemmas on the queries -/

theorem append_cancel_middle (a b x y : String) (h : a ++ x ++ b = a ++ y ++ b) : x = y := by
  have := congrArg String.data h
  simp only [String.data_append, List.append_assoc, List.append_cancel_left_eq,
    List.append_cancel_right_eq] at this
  exact String.ext this

/-! ## Lemmas on the pods -/

theorem foldl_meshCount (d : Deps) (pods : List Pod) (c : meshedCount) :
    pods.foldl
      (fun meshCount pod =>
        let meshCount := { meshCount with total := meshCount.total + 1 }
        if isInMesh d pod then { meshCount with inMesh := meshCount.inMesh + 1 } else meshCount)
      c =
      { inMesh := c.inMesh + pods.countP (isInMesh d), total := c.total + pods.length } := by
  induction pods generalizing c with
  | nil => simp
  | cons pod pods ih =>
    simp only [List.foldl_cons, ih, List.countP_cons, List.length_cons]
    by_cases h : isInMesh d pod = true
    · simp [h]
      omega
    · simp [h]
      omega

theorem isInMesh_iff (d : Deps) (pod : Pod) :
    isInMesh d pod = true ↔ d.ProxyVersionAnnotation ∈ pod.Annotations.keys := by
  unfold isInMesh
  rw [AList.lookup_isSome, AList.mem_keys]

/-! ## Lemmas on the error policy of `getRequests` -/

theorem drain_foldl_eq (l : List promResult) (e : Option Error) (acc : List promResult) :
    l.foldl
      (fun acc result =>
        match result.err with
        | some e => (some e, acc.2)
        | none => (acc.1, acc.2 ++ [result]))
      (e, acc) =
      (match (l.filterMap fun r => r.err).getLast? with
        | some last => some last
        | none => e,
       acc ++ l.filter fun r => r.err.isNone) := by
  induction l generalizing e acc with
  | nil => simp
  | cons r l ih =>
    cases hr : r.err with
    | none =>
      simp only [List.foldl_cons, hr, ih, List.filterMap_cons, List.filter_cons,
        Option.isNone_none, if_true, List.append_assoc, List.singleton_append]
    | some err =>
      simp only [List.foldl_cons, hr, ih, List.filterMap_cons, List.filter_cons,
        Option.isNone_some, List.getLast?_cons]
      cases (l.filterMap fun r => r.err).getLast? <;> simp

theorem drain_eq (l : List promResult) :
    drain l = ((l.filterMap fun r => r.err).getLast?, l.filter fun r => r.err.isNone) := by
  refine (drain_foldl_eq l none []).trans ?_
  cases (l.filterMap fun r => r.err).getLast? <;> simp

theorem filterMap_err_eq_nil (l : List promResult) :
    (l.filterMap fun r => r.err) = [] ↔ ∀ r ∈ l, r.err = none := by
  simp [List.filterMap_eq_nil_iff]

theorem getRequests_eq (d : Deps) (s : grpcServer) (arr : Arrival) (req : StatSummaryRequest)
    (timeWindow : String) :
    getRequests d s arr req timeWindow =
      match ((arr.order.map (queryTask d s (buildRequestLabels d req).1 timeWindow
          (buildRequestLabels d req).2)).filterMap fun r => r.err).getLast? with
      | some err => .error err
      | none =>
        .ok (processRequests d
          (arr.order.map (queryTask d s (buildRequestLabels d req).1 timeWindow
            (buildRequestLabels d req).2)) (buildRequestLabels d req).2) := by
  unfold getRequests
  simp only [drain_eq]
  cases h : ((arr.order.map (queryTask d s (buildRequestLabels d req).1 timeWindow
      (buildRequestLabels d req).2)).filterMap fun r => r.err).getLast? with
  | some err => rfl
  | none =>
    rw [List.getLast?_eq_none_iff, filterMap_err_eq_nil] at h
    have hf : (arr.order.map (queryTask d s (buildRequestLabels d req).1 timeWindow
        (buildRequestLabels d req).2)).filter (fun r => r.err.isNone) =
        arr.order.map (queryTask d s (buildRequestLabels d req).1 timeWindow
          (buildRequestLabels d req).2) := by
      rw [List.filter_eq_self]
      intro r hr
      simp [h r hr]
    simp only [hf]

/-! ## Lemmas on rows, pod statuses and last writes -/

theorem makeRow_counts (req : StatSummaryRequest) (meshCount : GoMap meshedCount)
    (requestMetrics : GoMap BasicStats) (key : String) (resource : ObjectMeta) :
    (∀ count, meshCount.lookup key = some count →
        (makeRow req meshCount requestMetrics key resource).MeshedPodCount = count.inMesh ∧
        (makeRow req meshCount requestMetrics key resource).TotalPodCount = count.total) ∧
      (meshCount.lookup key = none →
        (makeRow req meshCount requestMetrics key resource).MeshedPodCount = 0 ∧
        (makeRow req meshCount requestMetrics key resource).TotalPodCount = 0) := by
  unfold makeRow
  cases meshCount.lookup key <;> simp

theorem foldl_podStatus (d : Deps) (pods : List Pod) (acc : List PodStatus) :
    pods.foldl (fun podStatuses pod => podStatuses ++ [podStatus d pod]) acc =
      acc ++ pods.map (podStatus d) := by
  induction pods generalizing acc with
  | nil => simp
  | cons pod pods ih => simp [ih]

theorem vectorOf_append (rs rs' : List promResult) (kind : promType) :
    vectorOf (rs ++ rs') kind = vectorOf rs kind ++ vectorOf rs' kind := by
  simp [vectorOf, List.filter_append, List.flatMap_append]

theorem vectorOf_eq_nil (rs : List promResult) (kind : promType)
    (h : ∀ r ∈ rs, r.prom ≠ kind) : vectorOf rs kind = [] := by
  unfold vectorOf
  rw [List.filter_eq_nil_iff.mpr]
  · rfl
  · intro r hr
    simpa using h r hr

theorem vectorOf_cons_self (r : promResult) (rs : List promResult) :
    vectorOf (r :: rs) r.prom = r.vec ++ vectorOf rs r.prom := by
  simp [vectorOf]

theorem foldlM_podSummaryStep (d : Deps) (s : grpcServer) (pods : Object → List Pod)
    (hpods : ∀ o, s.GetPodsFor o = .ok (pods o)) (objects : List Object)
    (rows : List PodListRow) :
    objects.foldlM (podSummaryStep d s) rows =
      .ok (rows ++ objects.map fun o =>
        { Resource :=
            { Namespace := (s.GetSelectorFor o).ns, Type_ := (s.GetSelectorFor o).kind,
              Name := (s.GetSelectorFor o).name }
          PodStatuses := (pods o).map (podStatus d) }) := by
  induction objects generalizing rows with
  | nil => simp [pure, Except.pure]
  | cons o objects ih =>
    have hstep : podSummaryStep d s rows o =
        .ok (rows ++ [PodListRow.mk
          (Resource.mk (s.GetSelectorFor o).ns (s.GetSelectorFor o).kind
            (s.GetSelectorFor o).name)
          ((pods o).map (podStatus d))]) := by
      unfold podSummaryStep getPodStatuses
      rw [hpods o]
      simp only [foldl_podStatus, List.nil_append]
    simp only [List.foldlM_cons, hstep, bind, Except.bind, ih, List.map_cons, List.append_assoc,
      List.singleton_append]

/-! ## Lemmas on the injectivity of the queries -/

theorem not_mem_of_plain (s : String) (c : Char) (hs : plain s = true)
    (hc : (c.isAlphanum || c == '-' || c == '.' || c == '_') = false) : c ∉ s.data := by
  intro hmem
  have := List.all_eq_true.mp hs c hmem
  rw [hc] at this
  exact Bool.noConfusion this

theorem split_first (c : Char) (a₁ a₂ b₁ b₂ : List Char) (h₁ : c ∉ a₁) (h₂ : c ∉ a₂)
    (h : a₁ ++ c :: b₁ = a₂ ++ c :: b₂) : a₁ = a₂ ∧ b₁ = b₂ := by
  induction a₁ generalizing a₂ with
  | nil =>
    cases a₂ with
    | nil => exact ⟨rfl, by simpa using h⟩
    | cons y a₂ =>
      simp only [List.nil_append, List.cons_append, List.cons.injEq] at h
      exact absurd (List.mem_cons_self _ _) (h.1 ▸ h₂)
  | cons x a₁ ih =>
    cases a₂ with
    | nil =>
      simp only [List.nil_append, List.cons_append, List.cons.injEq] at h
      exact absurd (List.mem_cons_self _ _) (h.1 ▸ h₁)
    | cons y a₂ =>
      simp only [List.cons_append, List.cons.injEq] at h
      obtain ⟨hxy, hrest⟩ := h
      obtain ⟨ha, hb⟩ := ih a₂ (fun hm => h₁ (List.mem_cons_of_mem _ hm))
        (fun hm => h₂ (List.mem_cons_of_mem _ hm)) hrest
      exact ⟨by rw [hxy, ha], hb⟩

theorem split_last (c : Char) (a₁ a₂ b₁ b₂ : List Char) (h₁ : c ∉ b₁) (h₂ : c ∉ b₂)
    (h : a₁ ++ c :: b₁ = a₂ ++ c :: b₂) : a₁ = a₂ ∧ b₁ = b₂ := by
  have hr := congrArg List.reverse h
  simp only [List.reverse_append, List.reverse_cons, List.append_assoc, List.singleton_append]
    at hr
  obtain ⟨hb, ha⟩ := split_first c b₁.reverse b₂.reverse a₁.reverse a₂.reverse
    (by simpa using h₁) (by simpa using h₂) hr
  exact ⟨List.reverse_injective ha, List.reverse_injective hb⟩

theorem intercalate_go_data (s : String) (l : List String) (acc : String) :
    (String.intercalate.go acc s l).data = acc.data ++ sepData s l := by
  induction l generalizing acc with
  | nil => simp [String.intercalate.go, sepData]
  | cons x l ih =>
    rw [String.intercalate.go, ih]
    simp [sepData, String.data_append, List.append_assoc]

theorem intercalate_cons_data (s x : String) (l : List String) :
    (s.intercalate (x :: l)).data = x.data ++ sepData s l := by
  rw [String.intercalate, intercalate_go_data]

theorem sepData_injective (l₁ l₂ : List String) (a₁ a₂ : String)
    (h₁ : ∀ x ∈ a₁ :: l₁, ',' ∉ x.data) (h₂ : ∀ x ∈ a₂ :: l₂, ',' ∉ x.data)
    (h : a₁.data ++ sepData ", " l₁ = a₂.data ++ sepData ", " l₂) : a₁ :: l₁ = a₂ :: l₂ := by
  induction l₁ generalizing a₁ a₂ l₂ with
  | nil =>
    cases l₂ with
    | nil =>
      simp only [sepData, List.append_nil] at h
      rw [String.ext h]
    | cons b l₂ =>
      exfalso
      apply h₁ a₁ (List.mem_cons_self _ _)
      simp only [sepData, List.append_nil] at h
      rw [h]
      simp [show (", " : String).data = [',', ' '] from rfl]
  | cons b₁ l₁ ih =>
    cases l₂ with
    | nil =>
      exfalso
      apply h₂ a₂ (List.mem_cons_self _ _)
      simp only [sepData, List.append_nil] at h
      rw [← h]
      simp [show (", " : String).data = [',', ' '] from rfl]
    | cons b₂ l₂ =>
      simp only [sepData, show (", " : String).data = [',', ' '] from rfl, List.cons_append,
        List.nil_append, List.append_assoc] at h
      obtain ⟨ha, hrest⟩ := split_first ',' a₁.data a₂.data _ _
        (h₁ a₁ (List.mem_cons_self _ _)) (h₂ a₂ (List.mem_cons_self _ _)) h
      simp only [List.cons.injEq, true_and] at hrest
      have := ih l₂ b₁ b₂ (fun x hx => h₁ x (List.mem_cons_of_mem _ hx))
        (fun x hx => h₂ x (List.mem_cons_of_mem _ hx)) hrest
      rw [String.ext ha, this]

theorem intercalate_injective (l₁ l₂ : List String)
    (h₁ : ∀ x ∈ l₁, ',' ∉ x.data ∧ x ≠ "") (h₂ : ∀ x ∈ l₂, ',' ∉ x.data ∧ x ≠ "")
    (h : ", ".intercalate l₁ = ", ".intercalate l₂) : l₁ = l₂ := by
  have hd := congrArg String.data h
  cases l₁ with
  | nil =>
    cases l₂ with
    | nil => rfl
    | cons a₂ l₂ =>
      exfalso
      rw [intercalate_cons_data] at hd
      have : a₂.data = [] := by
        have := hd.symm
        simp only [String.intercalate] at this
        exact (List.append_eq_nil.mp this).1
      exact (h₂ a₂ (List.mem_cons_self _ _)).2 (String.ext this)
  | cons a₁ l₁ =>
    cases l₂ with
    | nil =>
      exfalso
      rw [intercalate_cons_data] at hd
      have : a₁.data = [] := by
        simp only [String.intercalate] at hd
        exact (List.append_eq_nil.mp hd).1
      exact (h₁ a₁ (List.mem_cons_self _ _)).2 (String.ext this)
    | cons a₂ l₂ =>
      rw [intercalate_cons_data, intercalate_cons_data] at hd
      exact sepData_injective l₁ l₂ a₁ a₂ (fun x hx => (h₁ x hx).1) (fun x hx => (h₂ x hx).1) hd

theorem promLabels_eq_ofMatchers (d : Deps) (r : Resource) :
    promLabels d r = ofMatchers (matchers d r) := by
  unfold promLabels matchers ofMatchers namespaceLabel
  by_cases hn : r.Name = "" <;> by_cases ht : r.Type_ = d.Namespaces <;>
    by_cases hs : r.Namespace = "" <;> simp [hn, ht, hs]

theorem promDstLabels_eq_ofMatchers (d : Deps) (r : Resource) :
    promDstLabels d r = ofMatchers ((matchers d r).map fun b => ("dst_" ++ b.1, b.2)) := by
  unfold promDstLabels matchers ofMatchers dstNamespaceLabel
  have hdst : ("dst_" : String) ++ "namespace" = "dst_namespace" := rfl
  by_cases hn : r.Name = "" <;> by_cases ht : r.Type_ = d.Namespaces <;>
    by_cases hs : r.Namespace = "" <;> simp [hn, ht, hs, hdst]

theorem empty_Merge_empty : ((∅ : LabelSet).Merge (∅ : LabelSet)) = ∅ := rfl

theorem buildRequestLabels_eq_assemble (d : Deps) (req : StatSummaryRequest) :
    buildRequestLabels d req = assemble (readParts d req) := by
  unfold buildRequestLabels readParts assemble
  rcases h : req.Outbound with _ | _ | _ | _ <;>
    simp only [promLabels_eq_ofMatchers, promDstLabels_eq_ofMatchers, promLabelNames_eq,
      promDstLabelNames_eq, List.map_nil, ofMatchers, List.foldl_nil, empty_Merge_empty] <;>
    by_cases ht : req.Selector.Resource.Type_ = d.Namespaces <;> simp [ht]

theorem lookup_foldl_insert (m : List (String × String)) (acc : LabelSet) (k v : String)
    (hnodup : (m.map Prod.fst).Nodup) :
    (m.foldl (fun set b => set.insert b.1 b.2) acc).lookup k = some v ↔
      (k, v) ∈ m ∨ (k ∉ m.map Prod.fst ∧ acc.lookup k = some v) := by
  induction m generalizing acc with
  | nil => simp
  | cons b m ih =>
    rw [List.map_cons, List.nodup_cons] at hnodup
    rw [List.foldl_cons, ih _ hnodup.2, lookup_insert_eq]
    by_cases hk : k = b.1
    · have hnot : (k, v) ∉ m := fun hmem =>
        hnodup.1 (hk ▸ List.mem_map_of_mem Prod.fst hmem)
      have hk' : k ∉ m.map Prod.fst := hk ▸ hnodup.1
      simp only [hk, if_true, List.mem_cons, List.map_cons, true_or, not_true_eq_false,
        false_and, or_false, Option.some.injEq]
      rw [hk] at hnot hk'
      constructor
      · rintro (h | ⟨_, h⟩)
        · exact absurd h hnot
        · exact Or.inl (by rw [← h])
      · rintro (h | h)
        · exact Or.inr ⟨hk', (congrArg Prod.snd h).symm⟩
        · exact absurd h hnot
    · have hne : (k, v) ≠ b := fun h => hk (by rw [← h])
      simp only [hk, if_false, List.mem_cons, List.map_cons, hne, false_or, not_or,
        not_false_eq_true, true_and]

theorem lookup_ofMatchers (m : List (String × String)) (k v : String)
    (hnodup : (m.map Prod.fst).Nodup) : (ofMatchers m).lookup k = some v ↔ (k, v) ∈ m := by
  unfold ofMatchers
  rw [lookup_foldl_insert m ∅ k v hnodup]
  simp

theorem dst_append_injective (x y : String) (h : "dst_" ++ x = "dst_" ++ y) : x = y := by
  have := congrArg String.data h
  simp only [String.data_append, List.append_cancel_left_eq] at this
  exact String.ext this

theorem lookup_dst_ofMatchers (m : List (String × String)) (k v : String)
    (hnodup : (m.map Prod.fst).Nodup) :
    (ofMatchers (m.map fun b => ("dst_" ++ b.1, b.2))).lookup k = some v ↔
      ∃ x, k = "dst_" ++ x ∧ (x, v) ∈ m := by
  rw [lookup_ofMatchers]
  · simp only [List.mem_map, Prod.mk.injEq, Prod.exists]
    constructor
    · rintro ⟨x, w, hmem, hk, hv⟩
      exact ⟨x, hk.symm, hv ▸ hmem⟩
    · rintro ⟨x, hk, hmem⟩
      exact ⟨x, v, hmem, hk.symm, rfl⟩
  · rw [List.map_map]
    have : (Prod.fst ∘ fun b : String × String => ("dst_" ++ b.1, b.2)) =
        (fun x => "dst_" ++ x) ∘ Prod.fst := rfl
    rw [this, ← List.map_map]
    exact hnodup.map fun x y h => dst_append_injective x y h

theorem lookup_assemble (parts : ReadParts) (hwf : parts.wellFormed) (k v : String) :
    (assemble parts).1.lookup k = some v ↔
      (k = "direction" ∧ v = parts.direction) ∨ (k, v) ∈ parts.own ∨
        ∃ x, k = "dst_" ++ x ∧ (x, v) ∈ parts.dst := by
  obtain ⟨hown, hdst, hdir, hpre⟩ := hwf
  unfold assemble
  simp only
  rw [lookup_Merge_of_disjoint, lookup_Merge_of_disjoint, lookup_empty_Merge,
    lookup_promDirectionLabels_iff, lookup_ofMatchers _ _ _ hown,
    lookup_dst_ofMatchers _ _ _ hdst]
  · intro w hw
    rw [lookup_empty_Merge, lookup_dst_ofMatchers _ _ _ hdst] at hw
    obtain ⟨x, hk, _⟩ := hw
    cases ho : (ofMatchers parts.own).lookup k with
    | none => rfl
    | some u =>
      exact absurd hk (hpre _ ((lookup_ofMatchers _ _ _ hown).mp ho) x)
  · intro w hw
    have hne : k ≠ "direction" := by
      rw [lookup_Merge_of_disjoint, lookup_empty_Merge, lookup_ofMatchers _ _ _ hown,
        lookup_dst_ofMatchers _ _ _ hdst] at hw
      · rcases hw with h | ⟨x, hk, _⟩
        · exact hdir _ h
        · rw [hk]
          exact dst_ne_direction x
      · intro w hw
        rw [lookup_empty_Merge, lookup_dst_ofMatchers _ _ _ hdst] at hw
        obtain ⟨x, hk, _⟩ := hw
        cases ho : (ofMatchers parts.own).lookup k with
        | none => rfl
        | some u =>
          exact absurd hk (hpre _ ((lookup_ofMatchers _ _ _ hown).mp ho) x)
    rw [lookup_promDirectionLabels, if_neg hne]

theorem eq_of_mem_iff (m₁ m₂ : List (String × String))
    (h₁ : m₁.Pairwise namespaceLast) (h₂ : m₂.Pairwise namespaceLast)
    (h : ∀ b, b ∈ m₁ ↔ b ∈ m₂) : m₁ = m₂ := by
  have hirr : ∀ a : String × String, ¬ namespaceLast a a := fun a ha => ha.2 ha.1
  have hnodup : ∀ m : List (String × String), m.Pairwise namespaceLast → m.Nodup := by
    intro m hm
    refine List.Pairwise.imp ?_ hm
    intro a b hab heq
    subst heq
    exact hirr a hab
  have hn₁ : m₁.Nodup := hnodup m₁ h₁
  have hn₂ : m₂.Nodup := hnodup m₂ h₂
  have hperm : m₁.Perm m₂ := (List.perm_ext_iff_of_nodup hn₁ hn₂).mpr h
  haveI : IsAntisymm (String × String) namespaceLast :=
    ⟨fun a b hab hba => absurd hab.1 hba.2⟩
  exact List.eq_of_perm_of_sorted hperm h₁ h₂

theorem parts_eq_of_lookup (p q : ReadParts) (hp : p.wellFormed) (hq : q.wellFormed)
    (hpo : p.own.Pairwise namespaceLast) (hqo : q.own.Pairwise namespaceLast)
    (hpd : p.dst.Pairwise namespaceLast) (hqd : q.dst.Pairwise namespaceLast)
    (h : ∀ k v, (assemble p).1.lookup k = some v ↔ (assemble q).1.lookup k = some v) :
    p.direction = q.direction ∧ p.own = q.own ∧ p.dst = q.dst := by
  have key : ∀ p q : ReadParts, p.wellFormed → q.wellFormed →
      (∀ k v, (assemble p).1.lookup k = some v → (assemble q).1.lookup k = some v) →
      p.direction = q.direction ∧ (∀ b, b ∈ p.own → b ∈ q.own) ∧
        ∀ b, b ∈ p.dst → b ∈ q.dst := by
    intro p q hp hq h
    refine ⟨?_, ?_, ?_⟩
    · have := h "direction" p.direction ((lookup_assemble p hp _ _).mpr (Or.inl ⟨rfl, rfl⟩))
      rcases (lookup_assemble q hq _ _).mp this with h1 | h1 | ⟨x, h1, _⟩
      · exact h1.2
      · exact absurd rfl (hq.2.2.1 _ h1)
      · exact absurd h1.symm (dst_ne_direction x)
    · rintro ⟨k, v⟩ hb
      have := h k v ((lookup_assemble p hp _ _).mpr (Or.inr (Or.inl hb)))
      rcases (lookup_assemble q hq _ _).mp this with h1 | h1 | ⟨x, h1, _⟩
      · exact absurd h1.1 (hp.2.2.1 _ hb)
      · exact h1
      · exact absurd h1 (hp.2.2.2 _ hb x)
    · rintro ⟨k, v⟩ hb
      have := h ("dst_" ++ k) v
        ((lookup_assemble p hp _ _).mpr (Or.inr (Or.inr ⟨k, rfl, hb⟩)))
      rcases (lookup_assemble q hq _ _).mp this with h1 | h1 | ⟨x, h1, h2⟩
      · exact absurd h1.1 (dst_ne_direction k)
      · exact absurd rfl (hq.2.2.2 _ h1 k)
      · rw [dst_append_injective k x h1]
        exact h2
  obtain ⟨h1, h2, h3⟩ := key p q hp hq fun k v => (h k v).mp
  obtain ⟨_, h5, h6⟩ := key q p hq hp fun k v => (h k v).mpr
  exact ⟨h1, eq_of_mem_iff _ _ hpo hqo fun b => ⟨h2 b, h5 b⟩,
    eq_of_mem_iff _ _ hpd hqd fun b => ⟨h3 b, h6 b⟩⟩

theorem plainTable_label (d : Deps) (h : plainTable d) (r : Resource) :
    plain (promResourceType d r) = true ∧ promResourceType d r ≠ "direction" ∧
      (∀ x : String, promResourceType d r ≠ "dst_" ++ x) ∧
      (r.Type_ ≠ d.Namespaces → promResourceType d r ≠ "namespace") := by
  obtain ⟨h1, h2, h3, h4⟩ := h r.Type_
  refine ⟨h1, h2, fun x hx => h3 ?_, fun hne heq => hne (h4 heq)⟩
  unfold promResourceType at hx
  rw [hx]
  simp [String.data_append, show ("dst_" : String).data = ['d', 's', 't', '_'] from rfl]

theorem mem_matchers (d : Deps) (r : Resource) (k v : String) :
    (k, v) ∈ matchers d r ↔
      (k = promResourceType d r ∧ v = r.Name ∧ r.Name ≠ "") ∨
      (k = "namespace" ∧ v = r.Namespace ∧ r.Type_ ≠ d.Namespaces ∧ r.Namespace ≠ "") := by
  unfold matchers
  by_cases hn : r.Name = "" <;> by_cases ht : r.Type_ = d.Namespaces <;>
    by_cases hs : r.Namespace = "" <;> simp [hn, ht, hs]

theorem matchers_pairwise (d : Deps) (h : plainTable d) (r : Resource) :
    (matchers d r).Pairwise namespaceLast := by
  obtain ⟨_, _, _, hns⟩ := plainTable_label d h r
  unfold matchers
  by_cases hn : r.Name = "" <;> by_cases ht : r.Type_ = d.Namespaces <;>
    by_cases hs : r.Namespace = "" <;> simp [hn, ht, hs, namespaceLast]
  exact hns ht

theorem matchers_nodup (d : Deps) (h : plainTable d) (r : Resource) :
    ((matchers d r).map Prod.fst).Nodup := by
  obtain ⟨_, _, _, hns⟩ := plainTable_label d h r
  unfold matchers
  by_cases hn : r.Name = "" <;> by_cases ht : r.Type_ = d.Namespaces <;>
    by_cases hs : r.Namespace = "" <;> simp [hn, ht, hs]
  exact hns ht

theorem matchers_names (d : Deps) (h : plainTable d) (r : Resource) :
    ∀ b ∈ matchers d r, plain b.1 = true ∧ b.1 ≠ "direction" ∧ ∀ x : String, b.1 ≠ "dst_" ++ x := by
  obtain ⟨h1, h2, h3, _⟩ := plainTable_label d h r
  rintro ⟨k, v⟩ hb
  rcases (mem_matchers d r k v).mp hb with hk | hk
  · rw [show (k, v).1 = promResourceType d r from hk.1]
    exact ⟨h1, h2, h3⟩
  · rw [show (k, v).1 = "namespace" from hk.1]
    exact ⟨by decide, by decide, fun x hx => dst_ne_namespace x hx.symm⟩

theorem readParts_wellFormed (d : Deps) (h : plainTable d) (req : StatSummaryRequest) :
    (readParts d req).wellFormed ∧ (readParts d req).own.Pairwise namespaceLast ∧
      (readParts d req).dst.Pairwise namespaceLast ∧
      (∀ b ∈ (readParts d req).own ++ (readParts d req).dst, plain b.1 = true) ∧
      ((readParts d req).direction = "inbound" ∨ (readParts d req).direction = "outbound") := by
  unfold readParts ReadParts.wellFormed
  rcases hout : req.Outbound with _ | _ | dst | src <;> simp only <;>
    refine ⟨⟨matchers_nodup d h _, ?_, fun b hb => (matchers_names d h _ b hb).2.1,
      fun b hb => (matchers_names d h _ b hb).2.2⟩, matchers_pairwise d h _, ?_, ?_, ?_⟩
  all_goals first
    | exact matchers_nodup d h _
    | exact matchers_pairwise d h _
    | exact List.nodup_nil
    | exact List.Pairwise.nil
    | exact Or.inl trivial
    | exact Or.inr trivial
    | (intro b hb
       rcases List.mem_append.mp hb with hb | hb
       · exact (matchers_names d h _ b hb).1
       · first
           | exact (matchers_names d h _ b hb).1
           | exact absurd hb (List.not_mem_nil b))

theorem readParts_groupBy (d : Deps) (h : plainTable d) (req : StatSummaryRequest) :
    ∃ a l, (readParts d req).groupBy = a :: l ∧ ∀ x ∈ a :: l, plain x = true := by
  have happ : ∀ x : String, plain x = true → plain ("dst_" ++ x) = true := by
    intro x hx
    unfold plain at hx ⊢
    rw [String.data_append, List.all_append, hx]
    rfl
  obtain ⟨h1, _⟩ := plainTable_label d h req.Selector.Resource
  unfold readParts
  rcases hout : req.Outbound with _ | _ | dst | src <;> simp only <;>
    by_cases ht : req.Selector.Resource.Type_ = d.Namespaces <;>
    simp only [ht, if_true, if_false] <;>
    refine ⟨_, _, rfl, ?_⟩ <;>
    simp only [List.mem_cons, List.mem_singleton, List.not_mem_nil, or_false, forall_eq_or_imp,
      forall_eq, h1, happ _ h1, and_true] <;> decide

theorem binding_injective (d : Deps)
    (hquote : ∀ v, plain v = true → d.Quote v = "\"" ++ v ++ "\"") (k₁ v₁ k₂ v₂ : String)
    (hk₁ : plain k₁ = true) (hv₁ : plain v₁ = true) (hk₂ : plain k₂ = true)
    (hv₂ : plain v₂ = true) (h : k₁ ++ "=" ++ d.Quote v₁ = k₂ ++ "=" ++ d.Quote v₂) :
    k₁ = k₂ ∧ v₁ = v₂ := by
  rw [hquote v₁ hv₁, hquote v₂ hv₂] at h
  have hd := congrArg String.data h
  simp only [String.data_append, List.append_assoc, show ("=" : String).data = ['='] from rfl,
    show ("\"" : String).data = ['"'] from rfl, List.singleton_append] at hd
  obtain ⟨hk, hrest⟩ := split_first '=' _ _ _ _ (not_mem_of_plain k₁ '=' hk₁ (by decide))
    (not_mem_of_plain k₂ '=' hk₂ (by decide)) hd
  simp only [List.cons.injEq, true_and, List.append_cancel_right_eq] at hrest
  exact ⟨String.ext hk, String.ext hrest⟩

theorem binding_comma_free (d : Deps)
    (hquote : ∀ v, plain v = true → d.Quote v = "\"" ++ v ++ "\"") (k v : String)
    (hk : plain k = true) (hv : plain v = true) :
    ',' ∉ (k ++ "=" ++ d.Quote v).data ∧ k ++ "=" ++ d.Quote v ≠ "" := by
  rw [hquote v hv]
  constructor
  · simp only [String.data_append, show ("=" : String).data = ['='] from rfl,
      show ("\"" : String).data = ['"'] from rfl, List.mem_append, List.mem_singleton, not_or]
    exact ⟨⟨not_mem_of_plain k ',' hk (by decide), by decide⟩,
      ⟨by decide, not_mem_of_plain v ',' hv (by decide)⟩, by decide⟩
  · intro h
    have := congrArg String.data h
    simp [String.data_append] at this

theorem mem_entries_iff (l : LabelSet) (k v : String) :
    (⟨k, v⟩ : (_ : String) × String) ∈ l.entries ↔ l.lookup k = some v :=
  (AList.mem_lookup_iff (s := l)).symm

theorem lookup_of_String_eq (d : Deps)
    (hquote : ∀ v, plain v = true → d.Quote v = "\"" ++ v ++ "\"") (l₁ l₂ : LabelSet)
    (h₁ : ∀ k v, l₁.lookup k = some v → plain k = true ∧ plain v = true)
    (h₂ : ∀ k v, l₂.lookup k = some v → plain k = true ∧ plain v = true)
    (h : l₁.String d = l₂.String d) :
    ∀ k v, l₁.lookup k = some v ↔ l₂.lookup k = some v := by
  have hfree : ∀ l : LabelSet, (∀ k v, l.lookup k = some v → plain k = true ∧ plain v = true) →
      ∀ x ∈ sortStrings (l.entries.map fun e => e.1 ++ "=" ++ d.Quote e.2),
        ',' ∉ x.data ∧ x ≠ "" := by
    intro l hl x hx
    unfold sortStrings at hx
    have hx' := (List.perm_insertionSort (fun a b : String => a.data ≤ b.data) _).subset hx
    obtain ⟨⟨k, v⟩, he, rfl⟩ := List.mem_map.mp hx'
    obtain ⟨hk, hv⟩ := hl k v ((mem_entries_iff l k v).mp he)
    exact binding_comma_free d hquote k v hk hv
  unfold LabelSet.String at h
  have hsorted := intercalate_injective _ _ (hfree l₁ h₁) (hfree l₂ h₂)
    (append_cancel_middle _ _ _ _ h)
  have hperm : (l₁.entries.map fun e => e.1 ++ "=" ++ d.Quote e.2).Perm
      (l₂.entries.map fun e => e.1 ++ "=" ++ d.Quote e.2) := by
    unfold sortStrings at hsorted
    refine (List.perm_insertionSort (fun a b : String => a.data ≤ b.data) _).symm.trans ?_
    rw [hsorted]
    exact List.perm_insertionSort (fun a b : String => a.data ≤ b.data) _
  have key : ∀ l₁ l₂ : LabelSet,
      (∀ k v, l₁.lookup k = some v → plain k = true ∧ plain v = true) →
      (∀ k v, l₂.lookup k = some v → plain k = true ∧ plain v = true) →
      (l₁.entries.map fun e => e.1 ++ "=" ++ d.Quote e.2).Perm
        (l₂.entries.map fun e => e.1 ++ "=" ++ d.Quote e.2) →
      ∀ k v, l₁.lookup k = some v → l₂.lookup k = some v := by
    intro l₁ l₂ h₁ h₂ hperm k v hkv
    have hmem : k ++ "=" ++ d.Quote v ∈ l₁.entries.map fun e => e.1 ++ "=" ++ d.Quote e.2 :=
      List.mem_map.mpr ⟨⟨k, v⟩, (mem_entries_iff l₁ k v).mpr hkv, rfl⟩
    obtain ⟨⟨k', v'⟩, he, heq⟩ := List.mem_map.mp (hperm.subset hmem)
    have hkv' := (mem_entries_iff l₂ k' v').mp he
    obtain ⟨hk, hv⟩ := h₁ k v hkv
    obtain ⟨hk', hv'⟩ := h₂ k' v' hkv'
    obtain ⟨e1, e2⟩ := binding_injective d hquote k' v' k v hk' hv' hk hv heq
    rw [← e1, ← e2]
    exact hkv'
  exact fun k v => ⟨key l₁ l₂ h₁ h₂ hperm k v, key l₂ l₁ h₂ h₁ hperm.symm k v⟩

theorem query_cancel (p l₁ l₂ m x g₁ g₂ e : List Char) (hx : '(' ∉ x) (hg₁ : '(' ∉ g₁)
    (hg₂ : '(' ∉ g₂) (he : '(' ∉ e)
    (h : p ++ (l₁ ++ (m ++ '(' :: (x ++ (g₁ ++ e)))) = p ++ (l₂ ++ (m ++ '(' :: (x ++ (g₂ ++ e))))) :
    l₁ = l₂ ∧ g₁ = g₂ := by
  rw [List.append_cancel_left_eq, ← List.append_assoc, ← List.append_assoc l₂] at h
  obtain ⟨ha, hb⟩ := split_last '(' _ _ _ _
    (by
      rw [List.mem_append, List.mem_append, not_or, not_or]
      exact ⟨hx, hg₁, he⟩)
    (by
      rw [List.mem_append, List.mem_append, not_or, not_or]
      exact ⟨hx, hg₂, he⟩) h
  rw [List.append_cancel_right_eq] at ha
  rw [List.append_cancel_left_eq, List.append_cancel_right_eq] at hb
  exact ⟨ha, hb⟩

theorem queryFor_injective (d : Deps) (l₁ l₂ : LabelSet) (timeWindow : String)
    (g₁ g₂ : LabelNames) (kind : promType) (hg₁ : '(' ∉ g₁.String.data)
    (hg₂ : '(' ∉ g₂.String.data)
    (h : queryFor d l₁ timeWindow g₁ kind = queryFor d l₂ timeWindow g₂ kind) :
    l₁.String d = l₂.String d ∧ g₁.String = g₂.String := by
  unfold queryFor reqQuery latencyQuantileQuery at h
  split_ifs at h
  · have hd := congrArg String.data h
    obtain ⟨ha, hb⟩ := query_cancel "sum(increase(response_total".data (l₁.String d).data
      (l₂.String d).data ("[".data ++ (timeWindow.data ++ "])) by ".data)) []
      g₁.String.data g₂.String.data ", classification)".data (List.not_mem_nil _) hg₁ hg₂
      (by decide) (by simpa [String.data_append] using hd)
    exact ⟨String.ext ha, String.ext hb⟩
  · have hd := congrArg String.data h
    obtain ⟨ha, hb⟩ := query_cancel
      ("histogram_quantile(".data ++
        (kind.data ++ ", sum(irate(response_latency_ms_bucket".data))
      (l₁.String d).data (l₂.String d).data ("[".data ++ (timeWindow.data ++ "])) by ".data))
      "le, ".data g₁.String.data g₂.String.data "))".data (by decide) hg₁ hg₂
      (by decide) (by simpa [String.data_append] using hd)
    exact ⟨String.ext ha, String.ext hb⟩

theorem not_mem_sepData (c : Char) (l : List String) (hc : c ∉ (", " : String).data)
    (hl : ∀ x ∈ l, c ∉ x.data) : c ∉ sepData ", " l := by
  induction l with
  | nil => simp [sepData]
  | cons x l ih =>
    simp only [sepData, List.mem_append, not_or]
    exact ⟨⟨hc, hl x (List.mem_cons_self _ _)⟩, ih fun y hy => hl y (List.mem_cons_of_mem _ hy)⟩

theorem groupBy_injective (a₁ a₂ : String) (l₁ l₂ : List String)
    (h₁ : ∀ x ∈ a₁ :: l₁, plain x = true) (h₂ : ∀ x ∈ a₂ :: l₂, plain x = true)
    (h : LabelNames.String (a₁ :: l₁) = LabelNames.String (a₂ :: l₂)) :
    a₁ :: l₁ = a₂ :: l₂ := by
  have hd := congrArg String.data h
  unfold LabelNames.String at hd
  rw [intercalate_cons_data, intercalate_cons_data] at hd
  exact sepData_injective l₁ l₂ a₁ a₂
    (fun x hx => not_mem_of_plain x ',' (h₁ x hx) (by decide))
    (fun x hx => not_mem_of_plain x ',' (h₂ x hx) (by decide)) hd

theorem groupBy_paren_free (a : String) (l : List String) (h : ∀ x ∈ a :: l, plain x = true) :
    '(' ∉ (LabelNames.String (a :: l)).data := by
  unfold LabelNames.String
  rw [intercalate_cons_data, List.mem_append, not_or]
  exact ⟨not_mem_of_plain a '(' (h a (List.mem_cons_self _ _)) (by decide),
    not_mem_sepData '(' l (by decide)
      fun x hx => not_mem_of_plain x '(' (h x (List.mem_cons_of_mem _ hx)) (by decide)⟩

theorem assemble_plain (d : Deps) (htable : plainTable d) (req : StatSummaryRequest)
    (hplain : (readParts d req).plainValues = true) :
    ∀ k v, (assemble (readParts d req)).1.lookup k = some v →
      plain k = true ∧ plain v = true := by
  obtain ⟨hwf, _, _, hnames, hdir⟩ := readParts_wellFormed d htable req
  have hvalues := List.all_eq_true.mp hplain
  have happ : ∀ x : String, plain x = true → plain ("dst_" ++ x) = true := by
    intro x hx
    unfold plain at hx ⊢
    rw [String.data_append, List.all_append, hx]
    rfl
  intro k v hkv
  rcases (lookup_assemble _ hwf k v).mp hkv with ⟨hk, hv⟩ | hb | ⟨x, hk, hb⟩
  · rw [hk, hv]
    rcases hdir with h | h <;> rw [h] <;> exact ⟨by decide, by decide⟩
  · exact ⟨hnames _ (List.mem_append_left _ hb), hvalues _ (List.mem_append_left _ hb)⟩
  · rw [hk]
    exact ⟨happ x (hnames _ (List.mem_append_right _ hb)),
      hvalues _ (List.mem_append_right _ hb)⟩

theorem exampleDeps_plainTable : plainTable exampleDeps := by
  intro ty
  simp only [exampleDeps, lookup_insert_eq, AList.lookup_empty]
  split_ifs with h1 h2 h3 h4
  · exact ⟨by decide, by decide, by decide, fun h => absurd h (by decide)⟩
  · exact ⟨by decide, by decide, by decide, fun h => absurd h (by decide)⟩
  · exact ⟨by decide, by decide, by decide, fun _ => h3⟩
  · exact ⟨by decide, by decide, by decide, fun h => absurd h (by decide)⟩
  · exact ⟨by decide, by decide, by decide, fun h => absurd h (by decide)⟩

/-! ## The claims -/

/-- C1: for a selector of the service kind with the direction filter unset, `None` (with or
without its payload) or `ToResource`, `StatSummary` does not return the InvalidArgument error:
the single-value type assertion on `req.Outbound` panics, before any call to the lister or to
prometheus. -/
theorem StatSummary_service_selector_panics (d : Deps) (s : grpcServer) (arr : Arrival)
    (ns name tw : String) (payload : Option Unit) (dst : Resource) :
    StatSummary d s arr
        { Selector := { Resource := { Namespace := ns, Type_ := d.Services, Name := name } }
          TimeWindow := tw, Outbound := none } =
      .error (.panic
        "interface conversion: public.isStatSummaryRequest_Outbound is nil, not *public.StatSummaryRequest_FromResource") ∧
    StatSummary d s arr
        { Selector := { Resource := { Namespace := ns, Type_ := d.Services, Name := name } }
          TimeWindow := tw, Outbound := some (.None payload) } =
      .error (.panic
        "interface conversion: public.isStatSummaryRequest_Outbound is *public.StatSummaryRequest_None, not *public.StatSummaryRequest_FromResource") ∧
    StatSummary d s arr
        { Selector := { Resource := { Namespace := ns, Type_ := d.Services, Name := name } }
          TimeWindow := tw, Outbound := some (.ToResource dst) } =
      .error (.panic
        "interface conversion: public.isStatSummaryRequest_Outbound is *public.StatSummaryRequest_ToResource, not *public.StatSummaryRequest_FromResource") := by
  refine ⟨?_, ?_, ?_⟩ <;> simp [StatSummary, assertFromResource]

/-- C2: for four results carrying the four distinct query kinds, `processRequests` applied to
any permutation of the list stores the same record at every key, and is undefined at the same
keys: the mapping does not depend on the arrival order. -/
theorem processRequests_arrival_order (d : Deps) (groupBy : LabelNames)
    (results results' : List promResult)
    (hkinds : (results.map fun r => r.prom).Perm promTypes)
    (hperm : results'.Perm results) (key : String) :
    (key ∈ (processRequests d results' groupBy).keys ↔
        key ∈ (processRequests d results groupBy).keys) ∧
      (processRequests d results' groupBy).lookup key =
        (processRequests d results groupBy).lookup key := by
  have hn : (results.map fun r => r.prom).Nodup := hkinds.nodup_iff.mpr promTypes_nodup
  have hmem : key ∈ processRequests d results' groupBy ↔
      key ∈ processRequests d results groupBy := by
    simp only [mem_processRequests, hperm.mem_iff]
  refine ⟨by rw [← AList.mem_keys, ← AList.mem_keys]; exact hmem, ?_⟩
  cases h' : (processRequests d results' groupBy).lookup key with
  | none =>
    rw [AList.lookup_eq_none, hmem, ← AList.lookup_eq_none] at h'
    exact h'.symm
  | some b' =>
    have hs : ((processRequests d results' groupBy).lookup key).isSome = true := by simp [h']
    rw [AList.lookup_isSome, hmem, ← AList.lookup_isSome, Option.isSome_iff_exists] at hs
    obtain ⟨b, hb⟩ := hs
    rw [hb]
    congr 1
    apply basicStats_eq_of_get
    intro f
    rw [get_processRequests d groupBy results' key f b' h',
      get_processRequests d groupBy results key f b hb, vectorOf_perm hn hperm]

/-- The theorem `processRequests_arrival_order` at the example data. -/
theorem processRequests_arrival_order_witness :
    ("ns1/web-a" ∈
        (processRequests exampleDeps scenarioResults.reverse ["namespace", "deployment"]).keys ↔
      "ns1/web-a" ∈
        (processRequests exampleDeps scenarioResults ["namespace", "deployment"]).keys) ∧
      (processRequests exampleDeps scenarioResults.reverse ["namespace", "deployment"]).lookup
          "ns1/web-a" =
        (processRequests exampleDeps scenarioResults ["namespace", "deployment"]).lookup
          "ns1/web-a" :=
  processRequests_arrival_order exampleDeps ["namespace", "deployment"] scenarioResults
    scenarioResults.reverse (by decide) (List.reverse_perm _) "ns1/web-a"

/-- C3: end to end without a direction filter (unset, or the `None` variant with its payload).  For the selector
of a deployment type named `web` in namespace `ns1`, two discovered objects `web-a` and `web-b` of `ns1`, a volume vector
with the samples success=10 and failure=2 for `web-a`, and p50, p95 and p99 vectors with the
samples 5, 20 and 50 for `web-a` only, `StatSummary` answers, in every arrival order of the four
results, with exactly two rows: the row of `web-a` with success count 10, failure count 2 and
latencies 5, 20 and 50, and the row of `web-b` without a record, all of whose counters read 0. -/
theorem StatSummary_end_to_end (d : Deps) (s : grpcServer) (arr : Arrival) (ty tw : String)
    (out : Option Outbound) (podsA podsB : List Pod)
    (hdir : out = none ∨ out = some (.None (some ())))
    (hservice : ty ≠ d.Services) (hns : ty ≠ d.Namespaces)
    (hlabel : d.ResourceTypesToProxyLabels.lookup ty = some "deployment")
    (hobjects : s.GetObjects "ns1" ty "web" =
      .ok [scenarioObject "web-a", scenarioObject "web-b"])
    (hpodsA : s.GetPodsFor (scenarioObject "web-a") = .ok podsA)
    (hpodsB : s.GetPodsFor (scenarioObject "web-b") = .ok podsB)
    (hquery : ∀ kind ∈ promTypes,
      s.Query (queryFor d (buildRequestLabels d (scenarioRequest ty tw out)).1 tw
          (buildRequestLabels d (scenarioRequest ty tw out)).2 kind) =
        .ok (.Vector (scenarioVector kind))) :
    ∃ rows rowA rowB,
      StatSummary d s arr (scenarioRequest ty tw out) = .ok { StatTables := [{ Rows := rows }] } ∧
      rows.Perm [rowA, rowB] ∧
      rowA.Resource = { Namespace := "ns1", Type_ := ty, Name := "web-a" } ∧
      rowA.Stats = some { SuccessCount := 10, FailureCount := 2, LatencyMsP50 := 5,
                          LatencyMsP95 := 20, LatencyMsP99 := 50 } ∧
      rowB.Resource = { Namespace := "ns1", Type_ := ty, Name := "web-b" } ∧
      rowB.Stats = none ∧ ∀ f, statsCounter f rowB.Stats = 0 := by
  have hreq := getRequests_ok d s arr (scenarioRequest ty tw out) tw scenarioVector
    (scenario_queryTask d s ty tw out hquery)
  rw [scenario_labelNames d ty tw out (some ()) hdir hns hlabel] at hreq
  obtain ⟨countA, hA⟩ := scenario_addObject d s "web-a" podsA (∅, ∅) hpodsA
  obtain ⟨countB, hB⟩ := scenario_addObject d s "web-b" podsB
    ((∅ : GoMap ObjectMeta).insert ("ns1/" ++ "web-a") { Namespace := "ns1", Name := "web-a" },
      (∅ : GoMap meshedCount).insert ("ns1/" ++ "web-a") countA) hpodsB
  have hfold : [scenarioObject "web-a", scenarioObject "web-b"].foldlM (addObject d s) (∅, ∅) =
      .ok (((∅ : GoMap ObjectMeta).insert "ns1/web-a" { Namespace := "ns1", Name := "web-a" }).insert
          "ns1/web-b" { Namespace := "ns1", Name := "web-b" },
        ((∅ : GoMap meshedCount).insert "ns1/web-a" countA).insert "ns1/web-b" countB) := by
    simp only [List.foldlM_cons, List.foldlM_nil, hA, bind, Except.bind]
    rw [hB]
    rfl
  let metrics := processRequests d
    (arr.order.map fun kind => ⟨kind, scenarioVector kind, none⟩) ["namespace", "deployment"]
  let mesh := ((∅ : GoMap meshedCount).insert "ns1/web-a" countA).insert "ns1/web-b" countB
  let rowA := makeRow (scenarioRequest ty tw out) mesh metrics "ns1/web-a"
    { Namespace := "ns1", Name := "web-a" }
  let rowB := makeRow (scenarioRequest ty tw out) mesh metrics "ns1/web-b"
    { Namespace := "ns1", Name := "web-b" }
  obtain ⟨hA1, _, hA3⟩ := makeRow_fields (scenarioRequest ty tw out) mesh metrics "ns1/web-a"
    { Namespace := "ns1", Name := "web-a" }
  obtain ⟨hB1, _, hB3⟩ := makeRow_fields (scenarioRequest ty tw out) mesh metrics "ns1/web-b"
    { Namespace := "ns1", Name := "web-b" }
  have hsB : rowB.Stats = none := hB3.trans (scenario_lookup_web_b d arr)
  refine ⟨[rowB, rowA], rowA, rowB, ?_, List.Perm.swap _ _ _, hA1,
    hA3.trans (scenario_lookup_web_a d arr), hB1, hsB, fun f => by rw [hsB]; rfl⟩
  have hreq' : getRequests d s arr (scenarioRequest ty tw out) (scenarioRequest ty tw out).TimeWindow =
      .ok metrics := hreq
  have hobjects' : s.GetObjects (scenarioRequest ty tw out).Selector.Resource.Namespace
      (scenarioRequest ty tw out).Selector.Resource.Type_
      (scenarioRequest ty tw out).Selector.Resource.Name =
        .ok [scenarioObject "web-a", scenarioObject "web-b"] := hobjects
  have hservice' : ¬ (scenarioRequest ty tw out).Selector.Resource.Type_ = d.Services := hservice
  have hbody : statSummaryBody d s arr (scenarioRequest ty tw out) =
      .ok { StatTables := [{ Rows := [rowB, rowA] }] } := by
    unfold statSummaryBody
    rw [hobjects']
    simp only [hfold]
    unfold objectQuery
    rw [hreq']
    simp only [rowKeys_unfiltered (scenarioRequest ty tw out) _ _ hdir, filterMap_rowFor_keys]
    rfl
  unfold StatSummary
  simp only [hbody, if_neg hservice']

/-- The theorem `StatSummary_end_to_end` at the example data. -/
theorem StatSummary_end_to_end_witness :
    ∃ rows rowA rowB,
      StatSummary exampleDeps (scenarioServer inboundQueries) exampleArrival
          (scenarioRequest "deployments" "1m" none) = .ok { StatTables := [{ Rows := rows }] } ∧
      rows.Perm [rowA, rowB] ∧
      rowA.Resource = { Namespace := "ns1", Type_ := "deployments", Name := "web-a" } ∧
      rowA.Stats = some { SuccessCount := 10, FailureCount := 2, LatencyMsP50 := 5,
                          LatencyMsP95 := 20, LatencyMsP99 := 50 } ∧
      rowB.Resource = { Namespace := "ns1", Type_ := "deployments", Name := "web-b" } ∧
      rowB.Stats = none ∧ ∀ f, statsCounter f rowB.Stats = 0 :=
  StatSummary_end_to_end exampleDeps (scenarioServer inboundQueries) exampleArrival
    "deployments" "1m" none [] [] (Or.inl rfl) (by decide) (by decide) (by rfl) (by rfl) (by rfl)
    (by rfl)
    (by
      intro kind hk
      simp only [promTypes, List.mem_cons, List.mem_singleton, List.not_mem_nil, or_false] at hk
      rcases hk with rfl | rfl | rfl | rfl <;> rfl)

/-- C4: the `None` variant without its payload is not treated as the absence of a direction
filter.  For the request of the scenario with `Outbound: &pb.StatSummaryRequest_None{}`,
three discovered objects `web-a`, `web-b`, `web-c` and statistics for `web-a` only, `objectQuery`
answers with the row of `web-a` alone, where the comment of line 151 and the claim want three
rows: the guard of line 150 reads the payload (`req.GetNone() != nil`), which is nil here, and
the request takes the branch of the direction filters.  With the payload set the same call
answers with three rows, two of them without a record. -/
theorem objectQuery_none_without_payload :
    objectQuery exampleDeps (scenarioServer inboundQueries) exampleArrival
        (scenarioRequest "deployments" "1m" (some (.None none))) threeObjects ∅ =
      .ok { StatTables := [{ Rows := [
        { Resource := { Namespace := "ns1", Type_ := "deployments", Name := "web-a" }
          TimeWindow := "1m"
          Stats := some { SuccessCount := 10, FailureCount := 2, LatencyMsP50 := 5,
                          LatencyMsP95 := 20, LatencyMsP99 := 50 } }] }] } ∧
    threeObjects.entries.length = 3 ∧
    ∃ rowA rowB rowC,
      objectQuery exampleDeps (scenarioServer inboundQueries) exampleArrival
          (scenarioRequest "deployments" "1m" (some (.None (some ())))) threeObjects ∅ =
        .ok { StatTables := [{ Rows := [rowC, rowB, rowA] }] } ∧
      rowA.Resource.Name = "web-a" ∧ rowB.Resource.Name = "web-b" ∧
      rowC.Resource.Name = "web-c" ∧ rowB.Stats = none ∧ rowC.Stats = none :=
  ⟨by rfl, by rfl, _, _, _, by rfl, by rfl, by rfl, by rfl, by rfl, by rfl⟩

/-- C5: for a request whose direction filter is `ToResource` or `FromResource`, `objectQuery`
answers with one row per key that is both in the statistics mapping and in the discovered-object
map, and with no other row: the rows are in one-to-one correspondence with a duplicate-free list
of exactly those keys, so a discovered object whose key has no statistics gets no row. -/
theorem objectQuery_rows_with_direction (d : Deps) (s : grpcServer) (arr : Arrival)
    (req : StatSummaryRequest) (objects : GoMap ObjectMeta) (meshCount : GoMap meshedCount)
    (requestMetrics : GoMap BasicStats) (r : Resource)
    (hdir : req.Outbound = some (.ToResource r) ∨ req.Outbound = some (.FromResource r))
    (hmetrics : getRequests d s arr req req.TimeWindow = .ok requestMetrics) :
    ∃ keys rows,
      objectQuery d s arr req objects meshCount = .ok { StatTables := [{ Rows := rows }] } ∧
      keys.Nodup ∧
      (∀ key, key ∈ keys ↔ key ∈ requestMetrics.keys ∧ key ∈ objects.keys) ∧
      List.Forall₂
        (fun (key : String) (row : Row) =>
          ∃ resource stats, objects.lookup key = some resource ∧
            requestMetrics.lookup key = some stats ∧
            row.Resource.Namespace = resource.Namespace ∧ row.Resource.Name = resource.Name ∧
            row.Stats = some stats)
        keys rows := by
  refine ⟨requestMetrics.keys.filter fun key =>
      (rowFor req objects meshCount requestMetrics key).isSome,
    requestMetrics.keys.filterMap (rowFor req objects meshCount requestMetrics), ?_, ?_, ?_, ?_⟩
  · unfold objectQuery
    rw [hmetrics]
    simp only [rowKeys_filtered req objects requestMetrics r hdir]
  · exact requestMetrics.keys_nodup.filter _
  · intro key
    rw [List.mem_filter, ← AList.mem_keys (s := objects), ← AList.lookup_isSome]
    unfold rowFor
    cases objects.lookup key <;> simp
  · refine List.Forall₂.imp ?_ (forall₂_filter_filterMap
      (rowFor req objects meshCount requestMetrics) requestMetrics.keys)
    intro key row h
    obtain ⟨hkey, hrow⟩ := h
    unfold rowFor at hrow
    cases hobj : objects.lookup key with
    | none => simp [hobj] at hrow
    | some resource =>
      simp only [hobj, Option.some.injEq] at hrow
      have hs : (requestMetrics.lookup key).isSome = true :=
        AList.lookup_isSome.mpr (AList.mem_keys.mpr hkey)
      obtain ⟨stats, hstats⟩ := Option.isSome_iff_exists.mp hs
      obtain ⟨h1, _, h3⟩ := makeRow_fields req meshCount requestMetrics key resource
      rw [hrow] at h1 h3
      exact ⟨resource, stats, rfl, hstats, by rw [h1], by rw [h1], by rw [h3, hstats]⟩

set_option maxRecDepth 100000 in
/-- The theorem `objectQuery_rows_with_direction` at the example data. -/
theorem objectQuery_rows_with_direction_witness :
    ∃ keys rows,
      objectQuery exampleDeps (scenarioServer outboundQueries) exampleArrival outboundRequest
          threeObjects ∅ = .ok { StatTables := [{ Rows := rows }] } ∧
      keys.Nodup ∧
      (∀ key, key ∈ keys ↔
        key ∈ (processRequests exampleDeps scenarioResults ["namespace", "deployment"]).keys ∧
          key ∈ threeObjects.keys) ∧
      List.Forall₂
        (fun (key : String) (row : Row) =>
          ∃ resource stats, threeObjects.lookup key = some resource ∧
            (processRequests exampleDeps scenarioResults ["namespace", "deployment"]).lookup
              key = some stats ∧
            row.Resource.Namespace = resource.Namespace ∧ row.Resource.Name = resource.Name ∧
            row.Stats = some stats)
        keys rows :=
  objectQuery_rows_with_direction exampleDeps (scenarioServer outboundQueries) exampleArrival
    outboundRequest threeObjects ∅
    (processRequests exampleDeps scenarioResults ["namespace", "deployment"])
    { Namespace := "ns2", Type_ := "pods", Name := "db" } (Or.inl rfl) (by rfl)

/-- C6: without a direction filter (unset, or `None` with or without its payload), `buildRequestLabels` returns the label set
that holds exactly `direction="inbound"`, the target's resource-type label with the target's name
when the name is non-empty, and `namespace` with the target's namespace when the target is not of
the namespace kind and the namespace is non-empty; the group-by names are `namespace` and the
target's resource-type label, `namespace` alone for a target of the namespace kind.  The
resource-type label of the target is assumed not to be `direction`, and not `namespace` unless
the target is of the namespace kind. -/
theorem buildRequestLabels_without_direction (d : Deps) (req : StatSummaryRequest)
    (payload : Option Unit) (hdir : req.Outbound = none ∨ req.Outbound = some (.None payload))
    (hlabel₁ : promResourceType d req.Selector.Resource ≠ "direction")
    (hlabel₂ : req.Selector.Resource.Type_ ≠ d.Namespaces →
      promResourceType d req.Selector.Resource ≠ "namespace") :
    (∀ name value, (buildRequestLabels d req).1.lookup name = some value ↔
        (name = "direction" ∧ value = "inbound") ∨
        (name = promResourceType d req.Selector.Resource ∧
          value = req.Selector.Resource.Name ∧ req.Selector.Resource.Name ≠ "") ∨
        (name = "namespace" ∧ value = req.Selector.Resource.Namespace ∧
          req.Selector.Resource.Type_ ≠ d.Namespaces ∧
          req.Selector.Resource.Namespace ≠ "")) ∧
      (buildRequestLabels d req).2 =
        if req.Selector.Resource.Type_ = d.Namespaces then ["namespace"]
        else ["namespace", promResourceType d req.Selector.Resource] := by
  rw [buildRequestLabels_default d req payload hdir]
  refine ⟨fun name value => ?_, promLabelNames_eq d _⟩
  rw [lookup_Merge_of_disjoint _ _ _ _
      (direction_disjoint d req.Selector.Resource "inbound" name hlabel₁ hlabel₂),
    lookup_empty_Merge, lookup_promDirectionLabels_iff,
    lookup_promLabels_iff d req.Selector.Resource name value hlabel₂]

/-- The theorem `buildRequestLabels_without_direction` at the example data. -/
theorem buildRequestLabels_without_direction_witness :
    (∀ name value,
        (buildRequestLabels exampleDeps (scenarioRequest "deployments" "1m" none)).1.lookup name =
          some value ↔
        (name = "direction" ∧ value = "inbound") ∨
        (name = "deployment" ∧ value = "web" ∧ ("web" : String) ≠ "") ∨
        (name = "namespace" ∧ value = "ns1" ∧ ("deployments" : String) ≠ "namespaces" ∧
          ("ns1" : String) ≠ "")) ∧
      (buildRequestLabels exampleDeps (scenarioRequest "deployments" "1m" none)).2 =
        ["namespace", "deployment"] :=
  buildRequestLabels_without_direction exampleDeps (scenarioRequest "deployments" "1m" none)
    none (Or.inl rfl) (by decide) (fun _ => by decide)

/-- C7: with the direction filter `ToResource dst`, `buildRequestLabels` returns the label set
that holds exactly the `dst_` labels of `dst` (`dst_` followed by its resource-type label with its
name when the name is non-empty, `dst_namespace` with its namespace when `dst` is not of the
namespace kind and the namespace is non-empty), the plain labels of the target, and
`direction="outbound"`; the group-by names are the plain `namespace` and resource-type label of
the target.  The resource-type labels are assumed not to collide: the target's is none of
`direction`, `dst_namespace` and the `dst_` label of `dst`, and a resource-type label is
`namespace` only for the namespace kind. -/
theorem buildRequestLabels_to_resource (d : Deps) (req : StatSummaryRequest) (dst : Resource)
    (hdir : req.Outbound = some (.ToResource dst))
    (hlabel₁ : promResourceType d req.Selector.Resource ≠ "direction")
    (hlabel₂ : req.Selector.Resource.Type_ ≠ d.Namespaces →
      promResourceType d req.Selector.Resource ≠ "namespace")
    (hlabel₃ : dst.Type_ ≠ d.Namespaces → promResourceType d dst ≠ "namespace")
    (hlabel₄ : promResourceType d req.Selector.Resource ≠ "dst_namespace")
    (hlabel₅ : promResourceType d req.Selector.Resource ≠ "dst_" ++ promResourceType d dst) :
    (∀ name value, (buildRequestLabels d req).1.lookup name = some value ↔
        (name = "direction" ∧ value = "outbound") ∨
        (name = promResourceType d req.Selector.Resource ∧
          value = req.Selector.Resource.Name ∧ req.Selector.Resource.Name ≠ "") ∨
        (name = "namespace" ∧ value = req.Selector.Resource.Namespace ∧
          req.Selector.Resource.Type_ ≠ d.Namespaces ∧
          req.Selector.Resource.Namespace ≠ "") ∨
        (name = "dst_" ++ promResourceType d dst ∧ value = dst.Name ∧ dst.Name ≠ "") ∨
        (name = "dst_namespace" ∧ value = dst.Namespace ∧ dst.Type_ ≠ d.Namespaces ∧
          dst.Namespace ≠ "")) ∧
      (buildRequestLabels d req).2 =
        if req.Selector.Resource.Type_ = d.Namespaces then ["namespace"]
        else ["namespace", promResourceType d req.Selector.Resource] := by
  have hb : buildRequestLabels d req =
      ((((∅ : LabelSet).Merge (promDstLabels d dst)).Merge
        (promLabels d req.Selector.Resource)).Merge (promDirectionLabels "outbound"),
        promLabelNames d req.Selector.Resource) := by
    unfold buildRequestLabels
    rw [hdir]
  rw [hb]
  refine ⟨fun name value => ?_, promLabelNames_eq d _⟩
  have hdst : ∀ w, (promDstLabels d dst).lookup name = some w →
      name = "dst_" ++ promResourceType d dst ∨ name = "dst_namespace" := by
    intro w hw
    rcases (lookup_promDstLabels_iff d dst name w hlabel₃).mp hw with h | h
    · exact Or.inl h.1
    · exact Or.inr h.1
  have hsrc : ∀ w, (promLabels d req.Selector.Resource).lookup name = some w →
      name = promResourceType d req.Selector.Resource ∨ name = "namespace" := by
    intro w hw
    rcases (lookup_promLabels_iff d req.Selector.Resource name w hlabel₂).mp hw with h | h
    · exact Or.inl h.1
    · exact Or.inr h.1
  have hdis₁ : ∀ w, ((∅ : LabelSet).Merge (promDstLabels d dst)).lookup name = some w →
      (promLabels d req.Selector.Resource).lookup name = none := by
    intro w hw
    rw [lookup_empty_Merge] at hw
    rw [lookup_promLabels]
    rcases hdst w hw with h | h
    · have h1 : name ≠ "namespace" := h ▸ dst_ne_namespace _
      have h2 : name ≠ promResourceType d req.Selector.Resource := h ▸ (Ne.symm hlabel₅)
      simp [h1, h2]
    · have h1 : name ≠ "namespace" := by rw [h]; decide
      have h2 : name ≠ promResourceType d req.Selector.Resource := h ▸ (Ne.symm hlabel₄)
      simp [h1, h2]
  have hdis₂ : ∀ w, (((∅ : LabelSet).Merge (promDstLabels d dst)).Merge
      (promLabels d req.Selector.Resource)).lookup name = some w →
      (promDirectionLabels "outbound").lookup name = none := by
    intro w hw
    rw [lookup_Merge_of_disjoint _ _ _ _ hdis₁, lookup_empty_Merge] at hw
    have hne : name ≠ "direction" := by
      rcases hw with hw | hw
      · rcases hsrc w hw with h | h
        · exact h ▸ hlabel₁
        · rw [h]; decide
      · rcases hdst w hw with h | h
        · exact h ▸ dst_ne_direction _
        · rw [h]; decide
    rw [lookup_promDirectionLabels, if_neg hne]
  rw [lookup_Merge_of_disjoint _ _ _ _ hdis₂, lookup_Merge_of_disjoint _ _ _ _ hdis₁,
    lookup_empty_Merge, lookup_promDirectionLabels_iff,
    lookup_promLabels_iff d req.Selector.Resource name value hlabel₂,
    lookup_promDstLabels_iff d dst name value hlabel₃]
  simp only [or_assoc]

/-- The theorem `buildRequestLabels_to_resource` at the example data. -/
theorem buildRequestLabels_to_resource_witness :
    (∀ name value, (buildRequestLabels exampleDeps outboundRequest).1.lookup name = some value ↔
        (name = "direction" ∧ value = "outbound") ∨
        (name = "deployment" ∧ value = "" ∧ ("" : String) ≠ "") ∨
        (name = "namespace" ∧ value = "ns1" ∧ ("deployments" : String) ≠ "namespaces" ∧
          ("ns1" : String) ≠ "") ∨
        (name = "dst_pod" ∧ value = "db" ∧ ("db" : String) ≠ "") ∨
        (name = "dst_namespace" ∧ value = "ns2" ∧ ("pods" : String) ≠ "namespaces" ∧
          ("ns2" : String) ≠ "")) ∧
      (buildRequestLabels exampleDeps outboundRequest).2 = ["namespace", "deployment"] :=
  buildRequestLabels_to_resource exampleDeps outboundRequest
    { Namespace := "ns2", Type_ := "pods", Name := "db" } rfl (by decide) (fun _ => by decide)
    (fun _ => by decide) (by decide) (by decide)

/-- C8: with the direction filter `FromResource src`, `buildRequestLabels` returns the label set
that holds exactly the plain labels of `src` and `direction="outbound"`, whatever the target
is; the group-by names are `dst_namespace` and `dst_` followed by the target's resource-type
label, `dst_namespace` alone for a target of the namespace kind.  The resource-type label of
`src` is assumed not to be `direction`, and not `namespace` unless `src` is of the namespace
kind. -/
theorem buildRequestLabels_from_resource (d : Deps) (req : StatSummaryRequest) (src : Resource)
    (hdir : req.Outbound = some (.FromResource src))
    (hlabel₁ : promResourceType d src ≠ "direction")
    (hlabel₂ : src.Type_ ≠ d.Namespaces → promResourceType d src ≠ "namespace") :
    (∀ name value, (buildRequestLabels d req).1.lookup name = some value ↔
        (name = "direction" ∧ value = "outbound") ∨
        (name = promResourceType d src ∧ value = src.Name ∧ src.Name ≠ "") ∨
        (name = "namespace" ∧ value = src.Namespace ∧ src.Type_ ≠ d.Namespaces ∧
          src.Namespace ≠ "")) ∧
      (∀ target : ResourceSelection,
        (buildRequestLabels d { req with Selector := target }).1 = (buildRequestLabels d req).1) ∧
      (buildRequestLabels d req).2 =
        if req.Selector.Resource.Type_ = d.Namespaces then ["dst_namespace"]
        else ["dst_namespace", "dst_" ++ promResourceType d req.Selector.Resource] := by
  have hb : ∀ target : ResourceSelection, buildRequestLabels d { req with Selector := target } =
      (((∅ : LabelSet).Merge (promLabels d src)).Merge (promDirectionLabels "outbound"),
        promDstLabelNames d target.Resource) := by
    intro target
    unfold buildRequestLabels
    simp only [hdir]
  have hb' := hb req.Selector
  simp only [] at hb'
  refine ⟨fun name value => ?_, fun target => by rw [hb target, hb'], ?_⟩
  · rw [hb', lookup_Merge_of_disjoint _ _ _ _
        (direction_disjoint d src "outbound" name hlabel₁ hlabel₂),
      lookup_empty_Merge, lookup_promDirectionLabels_iff,
      lookup_promLabels_iff d src name value hlabel₂]
  · rw [hb']
    exact promDstLabelNames_eq d _

/-- The theorem `buildRequestLabels_from_resource` at the example data. -/
theorem buildRequestLabels_from_resource_witness :
    (∀ name value, (buildRequestLabels exampleDeps fromRequest).1.lookup name = some value ↔
        (name = "direction" ∧ value = "outbound") ∨
        (name = "deployment" ∧ value = "web" ∧ ("web" : String) ≠ "") ∨
        (name = "namespace" ∧ value = "ns1" ∧ ("deployments" : String) ≠ "namespaces" ∧
          ("ns1" : String) ≠ "")) ∧
      (∀ target : ResourceSelection,
        (buildRequestLabels exampleDeps { fromRequest with Selector := target }).1 =
          (buildRequestLabels exampleDeps fromRequest).1) ∧
      (buildRequestLabels exampleDeps fromRequest).2 = ["dst_namespace", "dst_service"] :=
  buildRequestLabels_from_resource exampleDeps fromRequest
    { Namespace := "ns1", Type_ := "deployments", Name := "web" } rfl (by decide)
    (fun _ => by decide)

/-- C9: for four successful results of the four kinds in which no vector has two samples with
the same group key (for the volume vector: the same group key and classification), the record
stored at a key has as success and failure counts the rounded value of the volume sample with
that key and that classification, and as latencies the rounded value of the sample with that key
in the result of the quantile, each 0 when there is no such sample. -/
theorem processRequests_routing (d : Deps) (groupBy : LabelNames) (results : List promResult)
    (volume p50 p95 p99 : Vector)
    (hresults : results.Perm [⟨promRequests, volume, none⟩, ⟨promLatencyP50, p50, none⟩,
      ⟨promLatencyP95, p95, none⟩, ⟨promLatencyP99, p99, none⟩])
    (hvolume : (volume.map fun s =>
      (metricToKey s.Metric groupBy, LabelSet.get s.Metric "classification")).Nodup)
    (hp50 : (p50.map fun s => metricToKey s.Metric groupBy).Nodup)
    (hp95 : (p95.map fun s => metricToKey s.Metric groupBy).Nodup)
    (hp99 : (p99.map fun s => metricToKey s.Metric groupBy).Nodup)
    (key : String) (stats : BasicStats)
    (hstats : (processRequests d results groupBy).lookup key = some stats) :
    stats.SuccessCount = countOf d groupBy volume key
        (fun s => LabelSet.get s.Metric "classification" = "success") ∧
      stats.FailureCount = countOf d groupBy volume key
        (fun s => LabelSet.get s.Metric "classification" = "failure") ∧
      stats.LatencyMsP50 = countOf d groupBy p50 key (fun _ => true) ∧
      stats.LatencyMsP95 = countOf d groupBy p95 key (fun _ => true) ∧
      stats.LatencyMsP99 = countOf d groupBy p99 key (fun _ => true) := by
  obtain ⟨hv, h50, h95, h99⟩ := vectorOf_four volume p50 p95 p99 results hresults
  have hget := fun f => get_processRequests d groupBy results key f stats hstats
  refine ⟨?_, ?_, ?_, ?_, ?_⟩
  · have h := hget .SuccessCount
    simp only [Field.get, Field.kind, hv] at h
    rw [h]
    exact lastCount_eq_countOf d groupBy volume key _
      (fun s => (metricToKey s.Metric groupBy, LabelSet.get s.Metric "classification"))
      (key, "success") hvolume (by intro s hs; simp_all [Field.accepts])
  · have h := hget .FailureCount
    simp only [Field.get, Field.kind, hv] at h
    rw [h]
    exact lastCount_eq_countOf d groupBy volume key _
      (fun s => (metricToKey s.Metric groupBy, LabelSet.get s.Metric "classification"))
      (key, "failure") hvolume (by intro s hs; simp_all [Field.accepts])
  · have h := hget .LatencyMsP50
    simp only [Field.get, Field.kind, h50] at h
    rw [h]
    exact lastCount_eq_countOf d groupBy p50 key _ (fun s => metricToKey s.Metric groupBy) key
      hp50 (by intro s hs; simp_all [Field.accepts])
  · have h := hget .LatencyMsP95
    simp only [Field.get, Field.kind, h95] at h
    rw [h]
    exact lastCount_eq_countOf d groupBy p95 key _ (fun s => metricToKey s.Metric groupBy) key
      hp95 (by intro s hs; simp_all [Field.accepts])
  · have h := hget .LatencyMsP99
    simp only [Field.get, Field.kind, h99] at h
    rw [h]
    exact lastCount_eq_countOf d groupBy p99 key _ (fun s => metricToKey s.Metric groupBy) key
      hp99 (by intro s hs; simp_all [Field.accepts])

/-- The theorem `processRequests_routing` at the example data. -/
theorem processRequests_routing_witness :
    (10 : Nat) = countOf exampleDeps ["namespace", "deployment"] (scenarioVector promRequests)
        "ns1/web-a" (fun s => LabelSet.get s.Metric "classification" = "success") ∧
      (2 : Nat) = countOf exampleDeps ["namespace", "deployment"] (scenarioVector promRequests)
        "ns1/web-a" (fun s => LabelSet.get s.Metric "classification" = "failure") ∧
      (5 : Nat) = countOf exampleDeps ["namespace", "deployment"] (scenarioVector promLatencyP50)
        "ns1/web-a" (fun _ => true) ∧
      (20 : Nat) = countOf exampleDeps ["namespace", "deployment"] (scenarioVector promLatencyP95)
        "ns1/web-a" (fun _ => true) ∧
      (50 : Nat) = countOf exampleDeps ["namespace", "deployment"] (scenarioVector promLatencyP99)
        "ns1/web-a" (fun _ => true) :=
  processRequests_routing exampleDeps ["namespace", "deployment"] scenarioResultsByKind
    (scenarioVector promRequests) (scenarioVector promLatencyP50)
    (scenarioVector promLatencyP95) (scenarioVector promLatencyP99) (List.Perm.refl _)
    (by decide) (by decide) (by decide) (by decide) "ns1/web-a"
    { SuccessCount := 10, FailureCount := 2, LatencyMsP50 := 5, LatencyMsP95 := 20,
      LatencyMsP99 := 50 } (by rfl)

/-- C10: a key is present in the mapping `processRequests` returns exactly when a sample of a
result vector has that group key; a key no sample has is absent from the mapping. -/
theorem processRequests_key_presence (d : Deps) (groupBy : LabelNames)
    (results : List promResult) (key : String) :
    (key ∈ (processRequests d results groupBy).keys ↔
        ∃ r ∈ results, ∃ s ∈ r.vec, metricToKey s.Metric groupBy = key) ∧
      ((¬ ∃ r ∈ results, ∃ s ∈ r.vec, metricToKey s.Metric groupBy = key) →
        (processRequests d results groupBy).lookup key = none) := by
  have h := mem_processRequests d groupBy results key
  refine ⟨by rw [← AList.mem_keys]; exact h, fun hno => ?_⟩
  rw [AList.lookup_eq_none, h]
  exact hno

/-- C11, counterexample: the float `2^64` is non-negative and is an integer, and under no
implementation of the out-of-range conversion is it stored as `2^64`: a counter is below
`2^64`. -/
theorem sampleCount_rounding_counterexample :
    magnitude 1 64 = 2 ^ 64 ∧
      ¬ ∃ d : Deps, sampleCount d (.finite false 1 64) = 2 ^ 64 := by
  refine ⟨by norm_num [magnitude], ?_⟩
  rintro ⟨d, hd⟩
  have := sampleCount_lt d (.finite false 1 64)
  omega

/-- C11: the counter a sample value is stored as: 0 for NaN, 3 for 2.5, 0 for negative zero, the
next integer for a value halfway between two integers, and for every non-negative finite value
its nearest integer (halves rounded up), provided that integer is below `2^64`. -/
theorem sampleCount_rounding (d : Deps) :
    sampleCount d .NaN = 0 ∧
      (magnitude 5 (-1) = 5 / 2 ∧ sampleCount d (.finite false 5 (-1)) = 3) ∧
      sampleCount d (.finite true 0 0) = 0 ∧
      (∀ k : Nat, k + 1 < 2 ^ 64 →
        magnitude (2 * k + 1) (-1) = k + 1 / 2 ∧
          sampleCount d (.finite false (2 * k + 1) (-1)) = k + 1) ∧
      ∀ (mant : Nat) (exp : Int) (n : Nat), n < 2 ^ 64 →
        (n : ℚ) - 1 / 2 ≤ magnitude mant exp → magnitude mant exp < (n : ℚ) + 1 / 2 →
        sampleCount d (.finite false mant exp) = n := by
  refine ⟨rfl, ⟨by norm_num [magnitude], sampleCount_nonneg d 5 (-1) (by decide)⟩, rfl, ?_, ?_⟩
  · intro k hk
    have hr : roundMagnitude (2 * k + 1) (-1) = k + 1 := by
      show (2 * k + 1 + 2 ^ 0) / 2 ^ (0 + 1) = k + 1
      omega
    refine ⟨?_, ?_⟩
    · have : magnitude (2 * k + 1) (-1) = ((2 * k + 1 : ℕ) : ℚ) / 2 := by
        simp [magnitude, div_eq_mul_inv]
      rw [this]
      push_cast
      ring
    · rw [← hr]
      exact sampleCount_nonneg d _ _ (by rw [hr]; exact hk)
  · intro mant exp n hn hlo hhi
    obtain ⟨h1, h2⟩ := roundMagnitude_nearest mant exp
    have heq : roundMagnitude mant exp = n := by
      have ha : (roundMagnitude mant exp : ℚ) < (n : ℚ) + 1 := by linarith
      have hb : (n : ℚ) < (roundMagnitude mant exp : ℚ) + 1 := by linarith
      have ha' : roundMagnitude mant exp < n + 1 := by exact_mod_cast ha
      have hb' : n < roundMagnitude mant exp + 1 := by exact_mod_cast hb
      omega
    rw [← heq]
    exact sampleCount_nonneg d mant exp (by rw [heq]; exact hn)

/-- The theorem `sampleCount_rounding` at the example data: the float 5.25 is stored as 5. -/
theorem sampleCount_rounding_witness :
    sampleCount exampleDeps (.finite false 21 (-2)) = 5 :=
  (sampleCount_rounding exampleDeps).2.2.2.2 21 (-2) 5 (by decide)
    (by norm_num [magnitude]) (by norm_num [magnitude])

/-- C12: for the pod list the lister returns for an object, `getMeshedPodCount` returns as total
the number of pods and as in-mesh count the number of pods that carry the proxy-version
annotation, so the in-mesh count is at most the total; for an empty pod list both are 0. -/
theorem getMeshedPodCount_census (d : Deps) (s : grpcServer) (obj : Object) (pods : List Pod)
    (hpods : s.GetPodsFor obj = .ok pods) :
    ∃ count, getMeshedPodCount d s obj = .ok count ∧
      count.total = pods.length ∧
      count.inMesh =
        (pods.filter fun pod => d.ProxyVersionAnnotation ∈ pod.Annotations.keys).length ∧
      count.inMesh ≤ count.total ∧
      (pods = [] → count = { inMesh := 0, total := 0 }) := by
  refine ⟨{ inMesh := pods.countP (isInMesh d), total := pods.length }, ?_, rfl, ?_, ?_, ?_⟩
  · unfold getMeshedPodCount
    rw [hpods]
    simp only [foldl_meshCount]
    simp
  · simp only [List.countP_eq_length_filter]
    congr 2
    funext pod
    rw [Bool.eq_iff_iff, isInMesh_iff]
    simp
  · exact List.countP_le_length _
  · rintro rfl
    rfl

/-- The theorem `getMeshedPodCount_census` at the example data. -/
theorem getMeshedPodCount_census_witness :
    ∃ count, getMeshedPodCount exampleDeps podServer (scenarioObject "web-a") = .ok count ∧
      count.total = examplePods.length ∧
      count.inMesh =
        (examplePods.filter fun pod =>
          exampleDeps.ProxyVersionAnnotation ∈ pod.Annotations.keys).length ∧
      count.inMesh ≤ count.total ∧
      (examplePods = [] → count = { inMesh := 0, total := 0 }) :=
  getMeshedPodCount_census exampleDeps podServer (scenarioObject "web-a") examplePods rfl

/-- C13: over the four results in arrival order, `getRequests` returns an error exactly when a
result carries one; the error it returns is the one of the last result that carries an error, and
no mapping comes with it; when no result carries an error it returns `processRequests` of the
four results. -/
theorem getRequests_error_policy (d : Deps) (s : grpcServer) (arr : Arrival)
    (req : StatSummaryRequest) (timeWindow : String) (received : List promResult)
    (hreceived : received = arr.order.map (queryTask d s (buildRequestLabels d req).1 timeWindow
      (buildRequestLabels d req).2)) :
    received.length = 4 ∧
      ((∃ err, getRequests d s arr req timeWindow = .error err) ↔
        ∃ r ∈ received, r.err ≠ none) ∧
      (∀ err, getRequests d s arr req timeWindow = .error err ↔
        (received.filterMap fun r => r.err).getLast? = some err) ∧
      ((∀ r ∈ received, r.err = none) →
        getRequests d s arr req timeWindow =
          .ok (processRequests d received (buildRequestLabels d req).2)) := by
  subst hreceived
  have heq := getRequests_eq d s arr req timeWindow
  refine ⟨by rw [List.length_map, arr.perm.length_eq]; rfl, ?_, ?_, ?_⟩
  · rw [heq]
    cases h : ((arr.order.map (queryTask d s (buildRequestLabels d req).1 timeWindow
        (buildRequestLabels d req).2)).filterMap fun r => r.err).getLast? with
    | some err =>
      have hmem := List.mem_of_getLast?_eq_some h
      obtain ⟨r, hr, hre⟩ := List.mem_filterMap.mp hmem
      exact ⟨fun _ => ⟨r, hr, by rw [hre]; exact Option.some_ne_none err⟩, fun _ => ⟨err, rfl⟩⟩
    | none =>
      rw [List.getLast?_eq_none_iff, filterMap_err_eq_nil] at h
      constructor
      · rintro ⟨err, herr⟩
        exact Except.noConfusion herr
      · rintro ⟨r, hr, hne⟩
        exact absurd (h r hr) hne
  · intro err
    rw [heq]
    cases h : ((arr.order.map (queryTask d s (buildRequestLabels d req).1 timeWindow
        (buildRequestLabels d req).2)).filterMap fun r => r.err).getLast? with
    | some last =>
      constructor
      · intro hl
        injection hl with hl
        rw [hl]
      · intro hl
        injection hl with hl
        rw [hl]
    | none =>
      constructor
      · intro hl
        exact Except.noConfusion hl
      · intro hl
        exact Option.noConfusion hl
  · intro hall
    rw [heq]
    have h := (List.getLast?_eq_none_iff.trans (filterMap_err_eq_nil _)).mpr hall
    simp only [h]

/-- The theorem `getRequests_error_policy` at the example data: the server answers none of the
queries of the request, so each of the four results carries an error. -/
theorem getRequests_error_policy_witness :
    (exampleArrival.order.map (queryTask exampleDeps (scenarioServer outboundQueries)
        (buildRequestLabels exampleDeps (scenarioRequest "deployments" "1m" none)).1 "1m"
        (buildRequestLabels exampleDeps (scenarioRequest "deployments" "1m" none)).2)).length =
        4 ∧
      ((∃ err, getRequests exampleDeps (scenarioServer outboundQueries) exampleArrival
          (scenarioRequest "deployments" "1m" none) "1m" = .error err) ↔
        ∃ r ∈ exampleArrival.order.map (queryTask exampleDeps (scenarioServer outboundQueries)
          (buildRequestLabels exampleDeps (scenarioRequest "deployments" "1m" none)).1 "1m"
          (buildRequestLabels exampleDeps (scenarioRequest "deployments" "1m" none)).2),
          r.err ≠ none) ∧
      (∀ err, getRequests exampleDeps (scenarioServer outboundQueries) exampleArrival
          (scenarioRequest "deployments" "1m" none) "1m" = .error err ↔
        ((exampleArrival.order.map (queryTask exampleDeps (scenarioServer outboundQueries)
          (buildRequestLabels exampleDeps (scenarioRequest "deployments" "1m" none)).1 "1m"
          (buildRequestLabels exampleDeps (scenarioRequest "deployments" "1m" none)).2)).filterMap
            fun r => r.err).getLast? = some err) ∧
      ((∀ r ∈ exampleArrival.order.map (queryTask exampleDeps (scenarioServer outboundQueries)
          (buildRequestLabels exampleDeps (scenarioRequest "deployments" "1m" none)).1 "1m"
          (buildRequestLabels exampleDeps (scenarioRequest "deployments" "1m" none)).2),
          r.err = none) →
        getRequests exampleDeps (scenarioServer outboundQueries) exampleArrival
            (scenarioRequest "deployments" "1m" none) "1m" =
          .ok (processRequests exampleDeps
            (exampleArrival.order.map (queryTask exampleDeps (scenarioServer outboundQueries)
              (buildRequestLabels exampleDeps (scenarioRequest "deployments" "1m" none)).1 "1m"
              (buildRequestLabels exampleDeps (scenarioRequest "deployments" "1m" none)).2))
            (buildRequestLabels exampleDeps (scenarioRequest "deployments" "1m" none)).2)) :=
  getRequests_error_policy exampleDeps (scenarioServer outboundQueries) exampleArrival
    (scenarioRequest "deployments" "1m" none) "1m" _ rfl

/-- C14: for every request (any resource type, any direction) and every discovered object with
namespace `ns` and name `n`, a sample that carries the object's identity in the group-by labels
`buildRequestLabels` returns has as `metricToKey` the namespace/name key `StatSummary` files
the object under, so the lookup of the object's key in the mapping of any results that hold the
sample finds a record.  Objects of the namespace kind are cluster-scoped (empty namespace), the
others are namespaced. -/
theorem key_equivalence (d : Deps) (req : StatSummaryRequest) (ns n : String) (sample : Sample)
    (results : List promResult) (result : promResult)
    (hcluster : req.Selector.Resource.Type_ = d.Namespaces → ns = "")
    (hnamespaced : req.Selector.Resource.Type_ ≠ d.Namespaces → ns ≠ "")
    (hsample : carriesIdentity d req sample ns n = true)
    (hresult : result ∈ results) (hmem : sample ∈ result.vec) :
    ∃ key, MetaNamespaceKeyFunc { Meta := some { Namespace := ns, Name := n } } = .ok key ∧
      metricToKey sample.Metric (buildRequestLabels d req).2 = key ∧
      ∃ stats, (processRequests d results (buildRequestLabels d req).2).lookup key =
        some stats := by
  have hkey := metricToKey_of_carriesIdentity d req sample ns n hsample
  have hlookup : ∃ stats, (processRequests d results (buildRequestLabels d req).2).lookup
      (metricToKey sample.Metric (buildRequestLabels d req).2) = some stats :=
    Option.isSome_iff_exists.mp (AList.lookup_isSome.mpr
      ((mem_processRequests d _ results _).mpr ⟨result, hresult, sample, hmem, rfl⟩))
  refine ⟨metricToKey sample.Metric (buildRequestLabels d req).2, ?_, rfl, hlookup⟩
  rw [hkey]
  by_cases hty : req.Selector.Resource.Type_ = d.Namespaces
  · rw [if_pos hty, hcluster hty]
    exact MetaNamespaceKeyFunc_cluster n
  · rw [if_neg hty]
    exact MetaNamespaceKeyFunc_namespaced ns n (hnamespaced hty)

/-- The theorem `key_equivalence` at the example data. -/
theorem key_equivalence_witness :
    ∃ key, MetaNamespaceKeyFunc { Meta := some { Namespace := "ns1", Name := "web-a" } } =
        .ok key ∧
      metricToKey (scenarioSample "web-a" none 5).Metric
        (buildRequestLabels exampleDeps (scenarioRequest "deployments" "1m" none)).2 = key ∧
      ∃ stats, (processRequests exampleDeps scenarioResultsByKind
        (buildRequestLabels exampleDeps (scenarioRequest "deployments" "1m" none)).2).lookup
          key = some stats :=
  key_equivalence exampleDeps (scenarioRequest "deployments" "1m" none) "ns1" "web-a"
    (scenarioSample "web-a" none 5) scenarioResultsByKind
    ⟨promLatencyP50, scenarioVector promLatencyP50, none⟩
    (fun h => absurd h (by decide)) (fun _ => by decide) (by rfl)
    (List.mem_cons_of_mem _ (List.mem_cons_self _ _)) (List.mem_singleton.mpr rfl)

/-- C15, counterexample: two requests for different targets (another namespace and name) with
the same `FromResource` filter get the same four query strings, for all constants and every
time window. -/
theorem requestQuery_injective_counterexample :
    fromRequest.Selector.Resource ≠ fromRequestOther.Selector.Resource ∧
      ∀ (d : Deps) (timeWindow : String) (kind : promType),
        requestQuery d fromRequest timeWindow kind =
          requestQuery d fromRequestOther timeWindow kind :=
  ⟨by decide, fun _ _ _ => rfl⟩

/-- C15, as amended: for every time window and every kind of query, two requests get the same
query string exactly when they agree on the parts the queries are made of: the value of the
`direction` matcher, the matchers of the target (of the source under `FromResource`), the `dst_`
matchers of the destination under `ToResource`, and the group-by names of the target; requests
that differ in any of these get different queries.  The names and namespaces read are assumed
plain words, which `strconv.Quote` puts between double quotes unchanged, and the proxy labels
plain words without a collision. -/
theorem requestQuery_injective (d : Deps) (timeWindow : String) (kind : promType)
    (req₁ req₂ : StatSummaryRequest)
    (hquote : ∀ v, plain v = true → d.Quote v = "\"" ++ v ++ "\"")
    (htable : plainTable d)
    (hplain₁ : (readParts d req₁).plainValues = true)
    (hplain₂ : (readParts d req₂).plainValues = true) :
    requestQuery d req₁ timeWindow kind = requestQuery d req₂ timeWindow kind ↔
      readParts d req₁ = readParts d req₂ := by
  unfold requestQuery
  rw [buildRequestLabels_eq_assemble, buildRequestLabels_eq_assemble]
  constructor
  · intro h
    obtain ⟨hwf₁, ho₁, hd₁, _, _⟩ := readParts_wellFormed d htable req₁
    obtain ⟨hwf₂, ho₂, hd₂, _, _⟩ := readParts_wellFormed d htable req₂
    obtain ⟨a₁, l₁, hg₁, hp₁⟩ := readParts_groupBy d htable req₁
    obtain ⟨a₂, l₂, hg₂, hp₂⟩ := readParts_groupBy d htable req₂
    have hs₁ : (assemble (readParts d req₁)).2 = a₁ :: l₁ := hg₁
    have hs₂ : (assemble (readParts d req₂)).2 = a₂ :: l₂ := hg₂
    rw [hs₁, hs₂] at h
    obtain ⟨hl, hg⟩ := queryFor_injective d _ _ timeWindow _ _ kind
      (groupBy_paren_free a₁ l₁ hp₁) (groupBy_paren_free a₂ l₂ hp₂) h
    have hgroup := groupBy_injective a₁ a₂ l₁ l₂ hp₁ hp₂ hg
    obtain ⟨e1, e2, e3⟩ := parts_eq_of_lookup _ _ hwf₁ hwf₂ ho₁ ho₂ hd₁ hd₂
      (lookup_of_String_eq d hquote _ _ (assemble_plain d htable req₁ hplain₁)
        (assemble_plain d htable req₂ hplain₂) hl)
    have e4 : (readParts d req₁).groupBy = (readParts d req₂).groupBy := by
      rw [hg₁, hg₂, hgroup]
    revert e1 e2 e3 e4
    cases readParts d req₁
    cases readParts d req₂
    simp only [ReadParts.mk.injEq]
    exact fun e1 e2 e3 e4 => ⟨e1, e2, e3, e4⟩
  · intro h
    rw [h]

/-- The theorem `requestQuery_injective` at the example data: the deployments and the pods named
`web` of namespace `ns1` differ in the type of the selector alone, and get different queries. -/
theorem requestQuery_injective_witness :
    plainTable exampleDeps ∧
      requestQuery exampleDeps (scenarioRequest "deployments" "1m" none) "1m" promRequests ≠
        requestQuery exampleDeps (scenarioRequest "pods" "1m" none) "1m" promRequests :=
  ⟨exampleDeps_plainTable, fun h =>
    absurd
      ((requestQuery_injective exampleDeps "1m" promRequests
        (scenarioRequest "deployments" "1m" none) (scenarioRequest "pods" "1m" none)
        (fun _ _ => rfl) exampleDeps_plainTable (by decide) (by decide)).mp h)
      (by decide)⟩

/-- C16: `objectQuery` answers with one row for each key it makes rows for, in their order: the
keys of the discovered-object map when the request has no direction filter (the oneof unset, or
`None` with its payload), otherwise the keys of the statistics mapping that are keys of a
discovered object.  The row of a key has the namespace and the name of the object at the key,
the type of the request's selector, the request's time window, the record the statistics mapping
has at the key (nil, which reads as the zero record, when there is none), and the meshed and
total pod counts of the census at the key (0 and 0 when there is none). -/
theorem objectQuery_row_contents (d : Deps) (s : grpcServer) (arr : Arrival)
    (req : StatSummaryRequest) (objects : GoMap ObjectMeta) (meshCount : GoMap meshedCount)
    (requestMetrics : GoMap BasicStats)
    (hmetrics : getRequests d s arr req req.TimeWindow = .ok requestMetrics) :
    ∃ rows, objectQuery d s arr req objects meshCount = .ok { StatTables := [{ Rows := rows }] } ∧
      List.Forall₂
        (fun (key : String) (row : Row) =>
          ∃ resource, objects.lookup key = some resource ∧
            row.Resource = { Namespace := resource.Namespace,
                             Type_ := req.Selector.Resource.Type_, Name := resource.Name } ∧
            row.TimeWindow = req.TimeWindow ∧
            row.Stats = requestMetrics.lookup key ∧
            (requestMetrics.lookup key = none → ∀ f, statsCounter f row.Stats = 0) ∧
            (∀ count, meshCount.lookup key = some count →
              row.MeshedPodCount = count.inMesh ∧ row.TotalPodCount = count.total) ∧
            (meshCount.lookup key = none → row.MeshedPodCount = 0 ∧ row.TotalPodCount = 0))
        (if req.Outbound = none ∨ req.Outbound = some (.None (some ())) then objects.keys
          else requestMetrics.keys.filter fun key => decide (key ∈ objects.keys))
        rows := by
  refine ⟨(rowKeys req objects requestMetrics).filterMap
    (rowFor req objects meshCount requestMetrics), ?_, ?_⟩
  · unfold objectQuery
    rw [hmetrics]
  · have hkeys : (if req.Outbound = none ∨ req.Outbound = some (.None (some ())) then objects.keys
          else requestMetrics.keys.filter fun key => decide (key ∈ objects.keys)) =
        (rowKeys req objects requestMetrics).filter fun key =>
          (rowFor req objects meshCount requestMetrics key).isSome := by
      rw [rowKeys_eq]
      simp only [isSome_rowFor]
      split_ifs
      · exact (List.filter_eq_self.mpr fun key hkey => decide_eq_true hkey).symm
      · rfl
    rw [hkeys]
    refine List.Forall₂.imp ?_ (forall₂_filter_filterMap
      (rowFor req objects meshCount requestMetrics) (rowKeys req objects requestMetrics))
    intro key row h
    obtain ⟨_, hrow⟩ := h
    unfold rowFor at hrow
    cases hobj : objects.lookup key with
    | none => simp [hobj] at hrow
    | some resource =>
      simp only [hobj, Option.some.injEq] at hrow
      obtain ⟨h1, h2, h3⟩ := makeRow_fields req meshCount requestMetrics key resource
      obtain ⟨h4, h5⟩ := makeRow_counts req meshCount requestMetrics key resource
      rw [hrow] at h1 h2 h3 h4 h5
      refine ⟨resource, rfl, h1, h2, h3, fun hnone f => ?_, h4, h5⟩
      rw [h3, hnone]
      rfl

set_option maxRecDepth 100000 in
/-- The theorem `objectQuery_row_contents` at the example data, with a census for `web-a` (two
of three pods meshed) and none for `web-b` and `web-c`; the rows it describes are the three
rows the call evaluates to. -/
theorem objectQuery_row_contents_witness :
    (∃ rows, objectQuery exampleDeps (scenarioServer inboundQueries) exampleArrival
          (scenarioRequest "deployments" "1m" none) threeObjects
          ((∅ : GoMap meshedCount).insert "ns1/web-a" { inMesh := 2, total := 3 }) =
        .ok { StatTables := [{ Rows := rows }] } ∧
      List.Forall₂
        (fun (key : String) (row : Row) =>
          ∃ resource, threeObjects.lookup key = some resource ∧
            row.Resource = { Namespace := resource.Namespace, Type_ := "deployments",
                             Name := resource.Name } ∧
            row.TimeWindow = "1m" ∧
            row.Stats =
              (processRequests exampleDeps scenarioResults ["namespace", "deployment"]).lookup
                key ∧
            ((processRequests exampleDeps scenarioResults ["namespace", "deployment"]).lookup
                key = none → ∀ f, statsCounter f row.Stats = 0) ∧
            (∀ count, ((∅ : GoMap meshedCount).insert "ns1/web-a"
                { inMesh := 2, total := 3 }).lookup key = some count →
              row.MeshedPodCount = count.inMesh ∧ row.TotalPodCount = count.total) ∧
            (((∅ : GoMap meshedCount).insert "ns1/web-a" { inMesh := 2, total := 3 }).lookup
                key = none → row.MeshedPodCount = 0 ∧ row.TotalPodCount = 0))
        ["ns1/web-c", "ns1/web-b", "ns1/web-a"] rows) ∧
    objectQuery exampleDeps (scenarioServer inboundQueries) exampleArrival
        (scenarioRequest "deployments" "1m" none) threeObjects
        ((∅ : GoMap meshedCount).insert "ns1/web-a" { inMesh := 2, total := 3 }) =
      .ok { StatTables := [{ Rows := [
        { Resource := { Namespace := "ns1", Type_ := "deployments", Name := "web-c" }
          TimeWindow := "1m", Stats := none },
        { Resource := { Namespace := "ns1", Type_ := "deployments", Name := "web-b" }
          TimeWindow := "1m", Stats := none },
        { Resource := { Namespace := "ns1", Type_ := "deployments", Name := "web-a" }
          TimeWindow := "1m", MeshedPodCount := 2, TotalPodCount := 3
          Stats := some { SuccessCount := 10, FailureCount := 2, LatencyMsP50 := 5,
                          LatencyMsP95 := 20, LatencyMsP99 := 50 } }] }] } :=
  ⟨objectQuery_row_contents exampleDeps (scenarioServer inboundQueries) exampleArrival
    (scenarioRequest "deployments" "1m" none) threeObjects
    ((∅ : GoMap meshedCount).insert "ns1/web-a" { inMesh := 2, total := 3 })
    (processRequests exampleDeps scenarioResults ["namespace", "deployment"]) (by rfl), by rfl⟩

/-- C17: for the pod list the lister returns, `getPodStatuses` returns one status per pod, in
the order of the pods: its name is the pod's name; `Added` holds exactly when the pod carries the
proxy-version annotation, and is the value of `isInMesh`, the check of the mesh census;
`ControlPlane` holds exactly when the controller-component label is non-empty; `Status` is
`Terminating` for a pod with a deletion timestamp and the pod's phase otherwise. -/
theorem getPodStatuses_classification (d : Deps) (s : grpcServer) (obj : Object)
    (pods : List Pod) (hpods : s.GetPodsFor obj = .ok pods) :
    ∃ statuses, getPodStatuses d s obj = .ok statuses ∧
      List.Forall₂
        (fun (pod : Pod) (status : PodStatus) =>
          status.Name = pod.Name ∧
          (status.Added = true ↔ d.ProxyVersionAnnotation ∈ pod.Annotations.keys) ∧
          status.Added = isInMesh d pod ∧
          (status.ControlPlane = true ↔ LabelSet.get pod.Labels d.ControllerComponentLabel ≠ "") ∧
          (pod.DeletionTimestamp ≠ none → status.Status = "Terminating") ∧
          (pod.DeletionTimestamp = none → status.Status = pod.Phase))
        pods statuses := by
  refine ⟨pods.map (podStatus d), ?_, ?_⟩
  · unfold getPodStatuses
    rw [hpods]
    simp only [foldl_podStatus, List.nil_append]
  · rw [List.forall₂_map_right_iff, List.forall₂_same]
    intro pod _
    refine ⟨rfl, isInMesh_iff d pod, rfl, ?_, ?_, ?_⟩
    · simp [podStatus]
    · intro h
      simp [podStatus, h]
    · intro h
      simp [podStatus, h]

/-- The theorem `getPodStatuses_classification` at the example data. -/
theorem getPodStatuses_classification_witness :
    ∃ statuses, getPodStatuses exampleDeps podServer (scenarioObject "web-a") = .ok statuses ∧
      List.Forall₂
        (fun (pod : Pod) (status : PodStatus) =>
          status.Name = pod.Name ∧
          (status.Added = true ↔ exampleDeps.ProxyVersionAnnotation ∈ pod.Annotations.keys) ∧
          status.Added = isInMesh exampleDeps pod ∧
          (status.ControlPlane = true ↔
            LabelSet.get pod.Labels exampleDeps.ControllerComponentLabel ≠ "") ∧
          (pod.DeletionTimestamp ≠ none → status.Status = "Terminating") ∧
          (pod.DeletionTimestamp = none → status.Status = pod.Phase))
        examplePods statuses :=
  getPodStatuses_classification exampleDeps podServer (scenarioObject "web-a") examplePods rfl

/-- C18: when `GetObjects` and every `GetPodsFor` succeed, `PodSummary` returns a response with
one row per discovered object whatever `GetSelectorFor` returns, also when it returns an error
for every object: the error is never read. -/
theorem PodSummary_selector_error_ignored (d : Deps) (req : PodSummaryRequest)
    (objects : List Object) (pods : Object → List Pod) (selector : Object → SelectorFor)
    (query : String → Except Error Value) (err : Error) :
    PodSummary d
        { GetObjects := fun _ _ _ => .ok objects
          GetPodsFor := fun o => .ok (pods o)
          GetSelectorFor := fun o => { selector o with err := some err }
          Query := query } req =
      .ok { Rows := objects.map fun o =>
        { Resource :=
            { Namespace := (selector o).ns, Type_ := (selector o).kind,
              Name := (selector o).name }
          PodStatuses := (pods o).map (podStatus d) } } := by
  have h := foldlM_podSummaryStep d
    { GetObjects := fun _ _ _ => .ok objects
      GetPodsFor := fun o => .ok (pods o)
      GetSelectorFor := fun o => { selector o with err := some err }
      Query := query } pods (fun _ => rfl) objects []
  unfold PodSummary
  simp only [h, List.nil_append]

/-- C20: when samples of one result vector share a group key (and, in the volume vector, a
classification), `processRequests` still returns a mapping with a record at that key, and the
counter those samples are routed to holds the rounded value of the last of them in the order of
the vector, provided no later result is of the same kind. -/
theorem processRequests_last_write_wins (d : Deps) (groupBy : LabelNames)
    (before after : List promResult) (result : promResult)
    (hafter : ∀ r ∈ after, r.prom ≠ result.prom)
    (f : Field) (hkind : f.kind = result.prom) (key : String) (last : Sample)
    (hlast : (result.vec.filter fun s =>
      metricToKey s.Metric groupBy = key && f.accepts s).getLast? = some last) :
    ∃ stats, (processRequests d (before ++ result :: after) groupBy).lookup key = some stats ∧
      f.get stats = sampleCount d last.Value := by
  have hmemlast := List.mem_of_getLast?_eq_some hlast
  rw [List.mem_filter] at hmemlast
  have hkey : metricToKey last.Metric groupBy = key := by
    have := hmemlast.2
    simp only [Bool.and_eq_true, decide_eq_true_eq] at this
    exact this.1
  have hmem : key ∈ processRequests d (before ++ result :: after) groupBy := by
    rw [mem_processRequests]
    exact ⟨result, by simp, last, hmemlast.1, hkey⟩
  obtain ⟨stats, hstats⟩ := Option.isSome_iff_exists.mp (AList.lookup_isSome.mpr hmem)
  refine ⟨stats, hstats, ?_⟩
  rw [get_processRequests d groupBy _ key f stats hstats, hkind, vectorOf_append,
    vectorOf_cons_self, vectorOf_eq_nil after result.prom hafter, List.append_nil]
  unfold lastCount
  rw [List.filter_append, List.getLast?_append, hlast]
  rfl

/-- The theorem `processRequests_last_write_wins` at the example data: of the samples 5 and 7
of the same key, the latency holds 7. -/
theorem processRequests_last_write_wins_witness :
    ∃ stats, (processRequests exampleDeps
        ([⟨promRequests, scenarioVector promRequests, none⟩] ++
          ⟨promLatencyP50, duplicateVector, none⟩ ::
            [⟨promLatencyP95, scenarioVector promLatencyP95, none⟩])
        ["namespace", "deployment"]).lookup "ns1/web-a" = some stats ∧
      Field.LatencyMsP50.get stats =
        sampleCount exampleDeps (scenarioSample "web-a" none 7).Value :=
  processRequests_last_write_wins exampleDeps ["namespace", "deployment"]
    [⟨promRequests, scenarioVector promRequests, none⟩]
    [⟨promLatencyP95, scenarioVector promLatencyP95, none⟩]
    ⟨promLatencyP50, duplicateVector, none⟩
    (fun r hr => by
      rw [List.mem_singleton] at hr
      subst hr
      decide)
    .LatencyMsP50 rfl "ns1/web-a" (scenarioSample "web-a" none 7) (by rfl)

end Conduit
